import Mathlib

/-!
Shallow embedding of the cross-platform music-link matching engine of
convert-jakoblangtry-com (backend modules `spotifyApi.ts`, `appleMusicApi.ts`,
`linkConversion.ts`, `metadataExtraction.ts`, `app.ts`), together with proofs
and refutations of the frozen specification claims C1 to C10.

Modelling conventions:
* JavaScript strings are Lean `String`s / `List Char`; `toLowerCase` is modelled
  by ASCII lowering (all case-sensitive comparisons in the program are applied
  to ASCII keyword material, where the two coincide).
* Optional fields (`field?: T`) are `Option T`; JavaScript truthiness of an
  optional string (`undefined` and `""` are both falsy) is `jsTruthyO`.
* Numeric scores are exact rationals `ℚ`; the source's float arithmetic on
  these small decimal weights is exact, so `ℚ` is a faithful model.
* The handful of regular expressions in the source are compiled by hand into
  scanning functions over `List Char`; each carries a comment naming the regex
  it implements, with ECMAScript semantics (leftmost match, greedy with
  backtracking, non-overlapping global replacement without rescanning).
-/

namespace JsStr

/-- Code points of ECMAScript whitespace (`\s`, also the set used by
`String.prototype.trim`), minus the range 2000-200A handled below. -/
def jsWsCodes : List Nat :=
  [0x9, 0xA, 0xB, 0xC, 0xD, 0x20, 0xA0, 0x1680, 0x2028, 0x2029, 0x202F, 0x205F, 0x3000, 0xFEFF]

/-- ECMAScript `\s` character test. -/
def isJsWs (c : Char) : Bool :=
  jsWsCodes.contains c.toNat || (0x2000 ≤ c.toNat && c.toNat ≤ 0x200A)

/-- ASCII lowering of one character, modelling `String.prototype.toLowerCase`
(which agrees with ASCII lowering on ASCII input). -/
def jsToLower (s : String) : String :=
  String.mk (s.data.map Char.toLower)

/-- Does `pre` occur at the head of `l` (case sensitive)? -/
def prefixAt : List Char → List Char → Bool
  | [], _ => true
  | _ :: _, [] => false
  | p :: ps, c :: cs => p = c && prefixAt ps cs

/-- Does the lowercase pattern `pre` occur at the head of `l`, comparing the
text of `l` case-insensitively (ECMAScript `/i`)? -/
def lowerPrefixAt : List Char → List Char → Bool
  | [], _ => true
  | _ :: _, [] => false
  | p :: ps, c :: cs => p = c.toLower && lowerPrefixAt ps cs

/-- Does `needle` occur as a contiguous subsequence of `hay`?
(`String.prototype.includes`; the empty needle matches.) -/
def containsSub (needle : List Char) : List Char → Bool
  | [] => needle.isEmpty
  | c :: cs => prefixAt needle (c :: cs) || containsSub needle cs

/-- Case-insensitive version of `containsSub` for a lowercase needle. -/
def containsLowerSub (needle : List Char) : List Char → Bool
  | [] => needle.isEmpty
  | c :: cs => lowerPrefixAt needle (c :: cs) || containsLowerSub needle cs

/-- `s.includes(sub)` on strings. -/
def jsIncludes (s sub : String) : Bool :=
  containsSub sub.data s.data

/-- Split `l` at the first character satisfying `p`: `some (before, after)`
with the splitting character dropped, or `none` if no character matches. -/
def cutAtFirst (p : Char → Bool) : List Char → Option (List Char × List Char)
  | [] => none
  | c :: rest =>
    if p c then some ([], rest)
    else (cutAtFirst p rest).map (fun q => (c :: q.1, q.2))

theorem cutAtFirst_snd_lt (p : Char → Bool) :
    ∀ l q, cutAtFirst p l = some q → q.2.length < l.length := by
  intro l
  induction l with
  | nil => intro q h; simp [cutAtFirst] at h
  | cons c rest ih =>
    intro q h
    simp only [cutAtFirst] at h
    split at h
    · cases h
      show rest.length < (c :: rest).length
      simp
    · cases hq : cutAtFirst p rest with
      | none => rw [hq] at h; simp at h
      | some q0 =>
        rw [hq] at h
        simp only [Option.map_some'] at h
        cases h
        have := ih q0 hq
        show q0.2.length < (c :: rest).length
        simp only [List.length_cons]
        omega

/-- `l[i]`: JavaScript indexing returns `undefined` out of range. -/
def jsIndex (l : List α) (i : Nat) : Option α :=
  l.get? i

/-- Truthiness of an optional string: `undefined` and `""` are falsy. -/
def jsTruthyO (o : Option String) : Bool :=
  match o with
  | some s => !s.isEmpty
  | none => false

/-- Truthiness of an optional number: `undefined` and `0` are falsy. -/
def jsTruthyN (o : Option Int) : Bool :=
  match o with
  | some n => n != 0
  | none => false

/-- `a || b` on optional strings under JavaScript truthiness. -/
def jsOrOpt (a b : Option String) : Option String :=
  if jsTruthyO a then a else b

/-- Driver for a hand-compiled global regex replacement (`replace(/…/g, r)`):
scan left to right; the matcher `m l` returns the replacement text and the
number of characters the match consumes when a match starts at `l` (at least
one for every pattern in this development); `skip` counts remaining
characters of the current match, whose positions are not rescanned. -/
def gsub (m : List Char → Option (List Char × Nat)) : List Char → Nat → List Char
  | [], _ => []
  | _ :: rest, skip + 1 => gsub m rest skip
  | c :: rest, 0 =>
    match m (c :: rest) with
    | some q => if q.2 = 0 then c :: gsub m rest 0 else q.1 ++ gsub m rest (q.2 - 1)
    | none => c :: gsub m rest 0

/-- Driver for a hand-compiled `split(/…/)`: the matcher returns the length
of a separator match starting at the given suffix. -/
def gsplit (m : List Char → Option Nat) : List Char → Nat → List (List Char)
  | [], _ => [[]]
  | _ :: rest, skip + 1 => gsplit m rest skip
  | c :: rest, 0 =>
    match m (c :: rest) with
    | some k =>
      if k = 0 then
        match gsplit m rest 0 with
        | [] => [[c]]
        | q :: qs => (c :: q) :: qs
      else [] :: gsplit m rest (k - 1)
    | none =>
      match gsplit m rest 0 with
      | [] => [[c]]
      | q :: qs => (c :: q) :: qs

/-- `split` on a single-character class (`String.prototype.split(/[…]/)`,
also the behavior of a one-character string separator): empty pieces are
kept, and the empty input yields one empty piece. -/
def charSplit (p : Char → Bool) : List Char → List (List Char)
  | [] => [[]]
  | c :: rest =>
    if p c then [] :: charSplit p rest
    else
      match charSplit p rest with
      | [] => [[c]]
      | q :: qs => (c :: q) :: qs

/-- Split a string on a single-character class, as a list of strings. -/
def strSplitChar (s : String) (p : Char → Bool) : List String :=
  (charSplit p s.data).map String.mk

/-- Split at the first occurrence of a character sequence:
`some (before, after)` with the separator dropped. -/
def splitFirstSeq (needle : List Char) : List Char → Option (List Char × List Char)
  | [] => none
  | c :: rest =>
    if !needle.isEmpty && prefixAt needle (c :: rest) then
      some ([], (c :: rest).drop needle.length)
    else (splitFirstSeq needle rest).map (fun q => (c :: q.1, q.2))

/-- The matcher of `replace(/\s+/g, ' ')`: a maximal whitespace run becomes
one space. -/
def collapseWsMatch : List Char → Option (List Char × Nat)
  | [] => none
  | c :: rest =>
    if isJsWs c then some ([' '], 1 + (rest.takeWhile isJsWs).length) else none

/-- Collapse every run of whitespace to a single space:
the global replacement `replace(/\s+/g, ' ')`. -/
def collapseWs (l : List Char) : List Char :=
  gsub collapseWsMatch l 0

/-- Strip leading and trailing ECMAScript whitespace from a character list. -/
def jsTrimList (l : List Char) : List Char :=
  ((l.dropWhile isJsWs).reverse.dropWhile isJsWs).reverse

/-- `String.prototype.trim`. -/
def jsTrim (s : String) : String :=
  String.mk (jsTrimList s.data)

/-- Global replacement of a literal substring (`replace(/needle/g, repl)` for a
regex with no metacharacters): leftmost, non-overlapping, no rescan. -/
def replaceAllSub (needle repl : List Char) (l : List Char) : List Char :=
  gsub (fun l' =>
    if !needle.isEmpty && prefixAt needle l' then some (repl, needle.length) else none) l 0

/-- Replacement of the first occurrence of a literal substring
(`String.prototype.replace` with a string pattern). -/
def replaceFirstSub (needle repl : List Char) : List Char → List Char
  | [] => []
  | c :: rest =>
    if !needle.isEmpty && prefixAt needle (c :: rest) then
      repl ++ (c :: rest).drop needle.length
    else c :: replaceFirstSub needle repl rest

/-- `[...new Set(l)]`: deduplicate preserving first occurrences. -/
def dedupFirst (seen : List String) : List String → List String
  | [] => []
  | q :: qs => if seen.contains q then dedupFirst seen qs else q :: dedupFirst (q :: seen) qs

/-- `[...new Set(l)]` on a list of strings. -/
def jsSetDedup (l : List String) : List String :=
  dedupFirst [] l

/-- UTF-16 code units of one character (a surrogate pair above U+FFFF). -/
def utf16Char (c : Char) : List Nat :=
  if c.toNat < 0x10000 then [c.toNat]
  else [0xD800 + (c.toNat - 0x10000) / 0x400, 0xDC00 + (c.toNat - 0x10000) % 0x400]

/-- UTF-16 code units of a character list. -/
def utf16Units : List Char → List Nat
  | [] => []
  | c :: cs => utf16Char c ++ utf16Units cs

/-- Lexicographic `≤` on code-unit sequences. -/
def seqLe : List Nat → List Nat → Bool
  | [], _ => true
  | _ :: _, [] => false
  | a :: as, b :: bs => if a < b then true else if b < a then false else seqLe as bs

/-- `a <= b` in JavaScript string order (UTF-16 code-unit lexicographic), the
order the default `Array.prototype.sort` comparator establishes on strings. -/
def jsStrLe (a b : String) : Prop :=
  seqLe (utf16Units a.data) (utf16Units b.data) = true

instance : DecidableRel jsStrLe := fun _ _ => by
  unfold jsStrLe
  infer_instance

theorem seqLe_total : ∀ x y : List Nat, seqLe x y = true ∨ seqLe y x = true := by
  intro x
  induction x with
  | nil => intro y; left; rfl
  | cons a as ih =>
    intro y
    cases y with
    | nil => right; rfl
    | cons b bs =>
      simp only [seqLe]
      rcases Nat.lt_trichotomy a b with h | h | h
      · left; simp [h]
      · subst h
        rcases ih bs with h2 | h2 <;> simp [h2, Nat.lt_irrefl]
      · right; simp [h]

theorem seqLe_trans : ∀ x y z : List Nat,
    seqLe x y = true → seqLe y z = true → seqLe x z = true := by
  intro x
  induction x with
  | nil => intro y z _ _; rfl
  | cons a as ih =>
    intro y z hxy hyz
    cases y with
    | nil => simp [seqLe] at hxy
    | cons b bs =>
      cases z with
      | nil => simp [seqLe] at hyz
      | cons c cs =>
        simp only [seqLe] at hxy hyz ⊢
        rcases Nat.lt_trichotomy a b with h1 | h1 | h1
        · rcases Nat.lt_trichotomy b c with h2 | h2 | h2
          · rw [if_pos (Nat.lt_trans h1 h2)]
          · subst h2
            rw [if_pos h1]
          · rw [if_neg (Nat.lt_asymm h2), if_pos h2] at hyz
            exact absurd hyz (by simp)
        · subst h1
          rcases Nat.lt_trichotomy a c with h2 | h2 | h2
          · rw [if_pos h2]
          · subst h2
            rw [if_neg (Nat.lt_irrefl a), if_neg (Nat.lt_irrefl a)] at hxy hyz ⊢
            exact ih bs cs hxy hyz
          · rw [if_neg (Nat.lt_asymm h2), if_pos h2] at hyz
            exact absurd hyz (by simp)
        · rw [if_neg (Nat.lt_asymm h1), if_pos h1] at hxy
          exact absurd hxy (by simp)

theorem seqLe_antisymm : ∀ x y : List Nat,
    seqLe x y = true → seqLe y x = true → x = y := by
  intro x
  induction x with
  | nil =>
    intro y _ hyx
    cases y with
    | nil => rfl
    | cons b bs => simp [seqLe] at hyx
  | cons a as ih =>
    intro y hxy hyx
    cases y with
    | nil => simp [seqLe] at hxy
    | cons b bs =>
      simp only [seqLe] at hxy hyx
      rcases Nat.lt_trichotomy a b with h | h | h
      · simp [h, Nat.lt_asymm h] at hyx
      · subst h
        simp only [Nat.lt_irrefl, if_neg (Nat.lt_irrefl _)] at hxy hyx
        rw [ih bs hxy hyx]
      · simp [h, Nat.lt_asymm h] at hxy

theorem charToNat_inj {a b : Char} (h : a.toNat = b.toNat) : a = b := by
  cases a
  cases b
  simp only [Char.toNat] at h
  congr 1
  exact UInt32.toNat.inj h

theorem char_valid_nat (c : Char) :
    c.toNat < 0xD800 ∨ (0xDFFF < c.toNat ∧ c.toNat < 0x110000) := c.valid

theorem utf16Char_append_inj (a b : Char) (t1 t2 : List Nat)
    (h : utf16Char a ++ t1 = utf16Char b ++ t2) : a = b ∧ t1 = t2 := by
  have ha := char_valid_nat a
  have hb := char_valid_nat b
  by_cases h1 : a.toNat < 0x10000 <;> by_cases h2 : b.toNat < 0x10000 <;>
    simp only [utf16Char, h1, h2, if_pos, if_neg, ite_true, ite_false,
      List.cons_append, List.nil_append, List.cons.injEq] at h
  · exact ⟨charToNat_inj h.1, h.2⟩
  · exfalso
    have hdiv : (b.toNat - 0x10000) / 0x400 < 0x400 := by
      apply Nat.div_lt_iff_lt_mul (by norm_num) |>.mpr
      omega
    omega
  · exfalso
    have hdiv : (a.toNat - 0x10000) / 0x400 < 0x400 := by
      apply Nat.div_lt_iff_lt_mul (by norm_num) |>.mpr
      omega
    omega
  · obtain ⟨hq, hr, ht⟩ := h
    have hq2 : (a.toNat - 0x10000) / 0x400 = (b.toNat - 0x10000) / 0x400 := by omega
    have hr2 : (a.toNat - 0x10000) % 0x400 = (b.toNat - 0x10000) % 0x400 := by omega
    have hda := Nat.div_add_mod (a.toNat - 0x10000) 0x400
    have hdb := Nat.div_add_mod (b.toNat - 0x10000) 0x400
    have : a.toNat = b.toNat := by omega
    exact ⟨charToNat_inj this, ht⟩

theorem utf16Units_inj : ∀ as bs : List Char, utf16Units as = utf16Units bs → as = bs := by
  intro as
  induction as with
  | nil =>
    intro bs h
    cases bs with
    | nil => rfl
    | cons b bs' =>
      exfalso
      have hb := char_valid_nat b
      by_cases h2 : b.toNat < 0x10000 <;>
        simp [utf16Units, utf16Char, h2] at h
  | cons a as' ih =>
    intro bs h
    cases bs with
    | nil =>
      exfalso
      have hx := char_valid_nat a
      by_cases h2 : a.toNat < 0x10000 <;>
        simp [utf16Units, utf16Char, h2] at h
    | cons b bs' =>
      simp only [utf16Units] at h
      obtain ⟨hab, ht⟩ := utf16Char_append_inj a b _ _ h
      rw [hab, ih bs' ht]

instance : IsTotal String jsStrLe :=
  ⟨fun a b => seqLe_total (utf16Units a.data) (utf16Units b.data)⟩

instance : IsTrans String jsStrLe :=
  ⟨fun _ _ _ => seqLe_trans _ _ _⟩

instance : IsAntisymm String jsStrLe := by
  constructor
  intro a b hab hba
  exact String.ext (utf16Units_inj _ _ (seqLe_antisymm _ _ hab hba))

end JsStr


open JsStr

/-- The `DetailedMetadata` record of `metadataExtraction.ts`. `title`/`artist`
are declared `string` in the source and modelled as `String` (`""` plays the
role of the falsy absent value). `type` is declared as the union
`'track' | 'album' | 'artist'`, but the unchecked casts in
`linkConversion.ts` can populate it with `undefined` at runtime, so it is
modelled as `Option String`. -/
structure DetailedMetadata where
  title : String := ""
  artist : String := ""
  album : Option String := none
  artworkUrl : Option String := none
  type : Option String := none
  releaseDate : Option String := none
  genres : Option (List String) := none
  trackNumber : Option Nat := none
  totalTracks : Option Nat := none
  discNumber : Option Nat := none
  totalDiscs : Option Nat := none
  isrc : Option String := none
  duration : Option Int := none
  popularity : Option Nat := none
  previewUrl : Option String := none
deriving DecidableEq, Repr

namespace Spotify

/-- ASCII members of the punctuation class in `cleanText` of `spotifyApi.ts`,
listed by code point: backslash, apostrophe, and the ASCII symbols from the
source's character class. -/
def punctCodes : List Nat :=
  [0x5C, 0x27, 0x21, 0x22, 0x23, 0x24, 0x25, 0x26, 0x28, 0x29, 0x2A, 0x2B, 0x2C,
   0x2D, 0x2E, 0x2F, 0x3A, 0x3B, 0x3C, 0x3D, 0x3E, 0x3F, 0x40, 0x5B, 0x5D, 0x5E,
   0x5F, 0x60, 0x7B, 0x7C, 0x7D, 0x7E]

/-- The character class of the first replacement in `cleanText`:
ASCII punctuation plus the ranges U+2000-U+206F and U+2E00-U+2E7F. -/
def isPunct (c : Char) : Bool :=
  punctCodes.contains c.toNat || (0x2000 ≤ c.toNat && c.toNat ≤ 0x206F) ||
    (0x2E00 ≤ c.toNat && c.toNat ≤ 0x2E7F)

/-- The curly-quote class of the second replacement in `cleanText`. -/
def isSmartQuote (c : Char) : Bool :=
  c.toNat = 0x2018 || c.toNat = 0x2019 || c.toNat = 0x201C || c.toNat = 0x201D

/-- `cleanText` from `spotifyApi.ts`: punctuation to spaces, curly quotes
removed, whitespace runs collapsed, lowercased, trimmed. -/
def cleanText (s : String) : String :=
  jsTrim (jsToLower (String.mk (collapseWs
    ((s.data.map (fun c => if isPunct c then ' ' else c)).filter
      (fun c => !isSmartQuote c)))))

/-- The featuring keywords, in the source's alternation order. -/
def featKws : List String := ["feat", "ft", "featuring", "with"]

/-- Opening brackets `( [` and the opening curly brace. -/
def isOpener (c : Char) : Bool := c.toNat = 0x28 || c.toNat = 0x5B || c.toNat = 0x7B

/-- Closing brackets `) ]` and the closing curly brace. -/
def isCloser (c : Char) : Bool := c.toNat = 0x29 || c.toNat = 0x5D || c.toNat = 0x7D

/-- Continuation of the first `removeFeaturingArtists` regex after the keyword
and optional dot: matches the tail regex (one or more whitespace characters,
then one or more non-closing-bracket characters, then a closing bracket);
returns the remainder after the closing bracket. -/
def featParenTail (l : List Char) : Option (List Char) :=
  match cutAtFirst isCloser l with
  | some q =>
    if ((q.1.head?.map isJsWs).getD false) && q.1.length ≥ 2 then some q.2
    else none
  | none => none

/-- Try the featuring keywords in alternation order at the head of `l`,
each followed by an optional dot and the continuation `tail`. (Both
continuations used in this file require whitespace immediately after the
optional dot, so the dotless backtracking branch of the greedy dot can never
succeed where the dotted branch failed; taking the dot when present is
therefore a faithful compilation of the backtracking search.) -/
def tryFeatKws (tail : List Char → Option (List Char)) (l : List Char) :
    List String → Option (List Char)
  | [] => none
  | kw :: kws =>
    if lowerPrefixAt kw.data l then
      let rest := l.drop kw.length
      let rest2 := if rest.head? = some '.' then rest.tail else rest
      match tail rest2 with
      | some r => some r
      | none => tryFeatKws tail l kws
    else tryFeatKws tail l kws

/-- First pass of `removeFeaturingArtists`: the global replacement of
an opening bracket, a featuring keyword, an optional dot, whitespace,
non-closing-bracket content, and a closing bracket, by the empty string. -/
def featParenMatch : List Char → Option (List Char × Nat)
  | [] => none
  | c :: rest =>
    if isOpener c then
      (tryFeatKws featParenTail rest featKws).map
        (fun after => ([], (c :: rest).length - after.length))
    else none

def stripFeatParen (l : List Char) : List Char :=
  gsub featParenMatch l 0

/-- Characters admitted by the class excluding `( [` and the newline. -/
def isBareAllowed (c : Char) : Bool :=
  !(c.toNat = 0x28 || c.toNat = 0x5B || c.toNat = 0xA)

/-- Backtracking over the boundary between the whitespace-run part and the
content part of the second `removeFeaturingArtists` regex: `k` counts the
whitespace characters still claimed by the whitespace part (preferring the
longest run, as the greedy quantifier does), the content part then takes the
maximal run of admitted characters and must be nonempty. -/
def bareSplit (l : List Char) : Nat → Option (List Char)
  | 0 => none
  | k + 1 =>
    let after := l.drop (k + 1)
    let a := (after.takeWhile isBareAllowed).length
    if a = 0 then bareSplit l k else some (after.drop a)

/-- Continuation of the second `removeFeaturingArtists` regex after the
keyword and optional dot: whitespace, then content not containing an opening
bracket or newline, greedy. Returns the remainder after the match. -/
def featBareTail (l : List Char) : Option (List Char) :=
  bareSplit l ((l.takeWhile isJsWs).length)

/-- Second pass of `removeFeaturingArtists`: the global replacement of a bare
featuring keyword, an optional dot, whitespace, and following content by the
empty string. -/
def stripFeatBare (l : List Char) : List Char :=
  gsub (fun l' => (tryFeatKws featBareTail l' featKws).map
    (fun after => ([], l'.length - after.length))) l 0

/-- Third pass of `removeFeaturingArtists`: the global removal of any
remaining bracketed segment (opening bracket, any non-closing-bracket
characters, closing bracket). -/
def parenAnyMatch : List Char → Option (List Char × Nat)
  | [] => none
  | c :: rest =>
    if isOpener c then
      (cutAtFirst isCloser rest).map (fun q => ([], (c :: rest).length - q.2.length))
    else none

def stripParenAny (l : List Char) : List Char :=
  gsub parenAnyMatch l 0

/-- `removeFeaturingArtists` from `spotifyApi.ts` (the identical copy in
`appleMusicApi.ts` is aliased to this definition): three global regex
replacements followed by a trim. -/
def removeFeaturingArtists (s : String) : String :=
  jsTrim (String.mk (stripParenAny (stripFeatBare (stripFeatParen s.data))))

/-- The cleaned artist segments of `normalizeArtistName`: split on commas and
ampersands, each segment de-featured and cleaned, empty segments dropped. -/
def artistSegments (s : String) : List String :=
  (((charSplit (fun c => c = ',' || c = '&') s.data).map String.mk).map
    (fun seg => cleanText (removeFeaturingArtists seg))).filter (fun t => !t.isEmpty)

/-- `normalizeArtistName` from `spotifyApi.ts`: the cleaned segments are
sorted with the default `Array.prototype.sort` string order and joined with
spaces. -/
def normalizeArtistName (s : String) : String :=
  String.intercalate " " (List.insertionSort jsStrLe (artistSegments s))

/-- The version-tag keywords of `stripVersionInfo`, in alternation order. -/
def versionKws : List String :=
  ["remaster", "remix", "version", "edit", "deluxe", "anniversary", "super", "edition"]

/-- Does the segment contain one of the version keywords (case-insensitively)?
In the parenthesis pattern the keyword may sit anywhere between the brackets. -/
def containsVersionKw (mid : List Char) : Bool :=
  versionKws.any (fun kw => containsLowerSub kw.data mid)

/-- First pass of `stripVersionInfo`: globally remove a parenthesized segment
that contains a version keyword. Both content parts of the regex exclude the
closing parenthesis, so a match always runs from an opening parenthesis to the
first closing parenthesis after it, and exists iff a keyword occurs between. -/
def verParenMatch : List Char → Option (List Char × Nat)
  | [] => none
  | c :: rest =>
    if c = '(' then
      match cutAtFirst (fun d => d = ')') rest with
      | some q =>
        if containsVersionKw q.1 then some ([], (c :: rest).length - q.2.length) else none
      | none => none
    else none

def stripVerParen (l : List Char) : List Char :=
  gsub verParenMatch l 0

/-- Matcher for the tail of the bracket pattern of `stripVersionInfo` after
its opening `[`. In ECMAScript the source's class followed by a star parses
as "one arbitrary character, then a run of literal `]`", so the tail is: one
arbitrary character, a maximal run of `]` (a keyword cannot start with `]`),
a keyword, one arbitrary character, and a nonempty maximal run of `]` whose
last character serves as the closing bracket. Keywords are tried in
alternation order; the first whose continuation completes wins. -/
def verBracketTail (l : List Char) : List String → Option (List Char)
  | [] => none
  | kw :: kws =>
    (match l with
     | [] => none
     | _ :: r2 =>
       let r3 := r2.drop ((r2.takeWhile (fun d => d = ']')).length)
       if lowerPrefixAt kw.data r3 then
         match r3.drop kw.length with
         | [] => none
         | _ :: r5 =>
           let m := (r5.takeWhile (fun d => d = ']')).length
           if m ≥ 1 then some (r5.drop m) else none
       else none) <|> verBracketTail l kws

/-- Second pass of `stripVersionInfo`: the bracket variant of the keyword
removal, with the ECMAScript parse of its character classes described at
`verBracketTail`. -/
def verBracketMatch : List Char → Option (List Char × Nat)
  | [] => none
  | c :: rest =>
    if c = '[' then
      (verBracketTail rest versionKws).map
        (fun after => ([], (c :: rest).length - after.length))
    else none

def stripVerBracket (l : List Char) : List Char :=
  gsub verBracketMatch l 0

/-- Matcher for the tail of the year pattern of `stripVersionInfo` after the
opening bracket: optional whitespace, exactly four digits, optional
whitespace, then `)` or `]`. All quantifier boundaries are forced, so the
match is deterministic. Returns the remainder after the closing bracket. -/
def yearTail (l : List Char) : Option (List Char) :=
  match l.drop ((l.takeWhile isJsWs).length) with
  | d1 :: d2 :: d3 :: d4 :: r3 =>
    if d1.isDigit && d2.isDigit && d3.isDigit && d4.isDigit then
      match r3.drop ((r3.takeWhile isJsWs).length) with
      | c :: r5 => if c = ')' || c = ']' then some r5 else none
      | [] => none
    else none
  | _ => none

/-- Third pass of `stripVersionInfo`: globally remove a bracketed four-digit
year. -/
def yearMatch : List Char → Option (List Char × Nat)
  | [] => none
  | c :: rest =>
    if c = '(' || c = '[' then
      (yearTail rest).map (fun after => ([], (c :: rest).length - after.length))
    else none

def stripYear (l : List Char) : List Char :=
  gsub yearMatch l 0

/-- `stripVersionInfo` from `spotifyApi.ts`: remove parenthesized and
bracketed version indicators and bracketed years, then trim. -/
def stripVersionInfo (s : String) : String :=
  jsTrim (String.mk (stripYear (stripVerBracket (stripVerParen s.data))))

/-- The tribute indicator list of `isTributeBand`. -/
def tributeIndicators : List String :=
  ["tribute", "covers", "performs", "plays", "karaoke", "in the style of",
   "ukulele", "instrumental", "orchestra", "string quartet", "lullaby",
   "piano version", "jazz version"]

/-- `isTributeBand` from `spotifyApi.ts`. -/
def isTributeBand (artistName originalArtist : String) : Bool :=
  let lowerArtist := jsToLower artistName
  let lowerOriginal := jsToLower originalArtist
  if lowerArtist = lowerOriginal then false
  else jsIncludes lowerArtist lowerOriginal ||
    tributeIndicators.any (fun ind => jsIncludes lowerArtist ind)

/-- ECMAScript `\w` (ASCII word characters). -/
def isJsWordChar (c : Char) : Bool :=
  ('a' ≤ c && c ≤ 'z') || ('A' ≤ c && c ≤ 'Z') || ('0' ≤ c && c ≤ '9') || c = '_'

/-- The number-word table of `generateSearchQueries`. -/
def numberWords : List String :=
  ["zero", "one", "two", "three", "four", "five", "six", "seven", "eight", "nine",
   "ten", "eleven", "twelve", "thirteen", "fourteen", "fifteen", "sixteen",
   "seventeen", "eighteen", "nineteen", "twenty"]

/-- `parseInt` on a run of decimal digits. -/
def digitRunToNat (run : List Char) : Nat :=
  run.foldl (fun a c => a * 10 + (c.toNat - 48)) 0

/-- The digit-run replacement of `generateSearchQueries`: every maximal run
of digits whose value is at most twenty becomes the corresponding word. -/
def smallNumberMatch : List Char → Option (List Char × Nat)
  | [] => none
  | c :: rest =>
    if c.isDigit then
      let run := c :: rest.takeWhile Char.isDigit
      let n := digitRunToNat run
      some ((if n ≤ 20 then ((numberWords.get? n).getD "").data else run), run.length)
    else none

def replaceSmallNumbers (l : List Char) : List Char :=
  gsub smallNumberMatch l 0

/-- The numeric-title variant of `generateSearchQueries`: strip characters
that are neither word characters nor whitespace, then spell out small
numbers. -/
def numerifyTitle (title : String) : String :=
  String.mk (replaceSmallNumbers
    (title.data.filter (fun c => isJsWordChar c || isJsWs c)))

/-- The quoted track/artist query template of `generateSearchQueries`. -/
def trackArtistQuery (t a : String) : String :=
  "track:\"" ++ t ++ "\" artist:\"" ++ a ++ "\""

/-- `generateSearchQueries` from `spotifyApi.ts`: the ordered query list for
one source metadata record. -/
def generateSearchQueries (metadata : DetailedMetadata) : List String :=
  if metadata.type = some "artist" then
    let artist := cleanText metadata.artist
    ["artist:\"" ++ artist ++ "\"", artist]
  else
    let title := cleanText metadata.title
    let cleanTitle := removeFeaturingArtists title
    let artist := normalizeArtistName metadata.artist
    let strippedTitle := stripVersionInfo cleanTitle
    (if jsTruthyO metadata.isrc then ["isrc:" ++ metadata.isrc.getD ""] else [])
    ++ [trackArtistQuery title artist]
    ++ (if cleanTitle ≠ title then [trackArtistQuery cleanTitle artist] else [])
    ++ (if strippedTitle ≠ cleanTitle then [trackArtistQuery strippedTitle artist] else [])
    ++ (if jsTruthyO metadata.album then
          let cleanAlbum := cleanText (metadata.album.getD "")
          let strippedAlbum := stripVersionInfo cleanAlbum
          ["track:\"" ++ cleanTitle ++ "\" album:\"" ++ cleanAlbum ++ "\""]
          ++ (if strippedAlbum ≠ cleanAlbum then
                ["track:\"" ++ strippedTitle ++ "\" album:\"" ++ strippedAlbum ++ "\""]
              else [])
        else [])
    ++ [strippedTitle ++ " " ++ artist]
    ++ (let numericTitle := numerifyTitle title
        if numericTitle ≠ title then [trackArtistQuery numericTitle artist] else [])

/-- A Spotify artist object (the field the source reads). -/
structure SpotifyArtist where
  name : String := ""
deriving DecidableEq, Repr

/-- A Spotify image object (the field the source reads). -/
structure SpotifyImage where
  url : String := ""
deriving DecidableEq, Repr

/-- A Spotify album object (the fields the source reads). -/
structure SpotifyAlbum where
  name : String := ""
  images : Option (List SpotifyImage) := none
  release_date : Option String := none
  total_tracks : Option Nat := none
deriving DecidableEq, Repr

/-- A raw Spotify search-result item (the fields `spotifyApi.ts` reads).
`external_urls_spotify` is `external_urls.spotify`. -/
structure SpotifyItem where
  name : String := ""
  artists : Option (List SpotifyArtist) := none
  album : Option SpotifyAlbum := none
  duration_ms : Option Int := none
  genres : Option (List String) := none
  popularity : Option Nat := none
  images : Option (List SpotifyImage) := none
  external_urls_spotify : String := ""
  release_date : Option String := none
  track_number : Option Nat := none
  disc_number : Option Nat := none
  preview_url : Option String := none
deriving DecidableEq, Repr

/-- The joined artist text `spotifyItem.artists?.map(a => a.name).join(' ') || ''`. -/
def joinedArtistNames (spotifyItem : SpotifyItem) : String :=
  (spotifyItem.artists.map
    (fun l => String.intercalate " " (l.map (fun a => a.name)))).getD ""

/-- The tribute test of the track/album scoring branch:
`spotifyItem.artists?.some(a => isTributeBand(a.name, sourceMetadata.artist))`. -/
def anyTributeArtist (spotifyItem : SpotifyItem) (sourceMetadata : DetailedMetadata) : Bool :=
  (spotifyItem.artists.map
    (fun l => l.any (fun a => isTributeBand a.name sourceMetadata.artist))).getD false

/-- The duration condition of the track/album scoring branch:
a truthy source duration within two seconds of the item duration
(an absent item duration compares as `NaN` and fails). -/
def durationClose (spotifyItem : SpotifyItem) (sourceMetadata : DetailedMetadata) : Bool :=
  jsTruthyN sourceMetadata.duration &&
    (match spotifyItem.duration_ms, sourceMetadata.duration with
     | some dm, some d => decide ((dm - d).natAbs < 2000)
     | _, _ => false)

/-- The album condition of the track/album scoring branch: a truthy source
album, a present item album, and equal cleaned names. -/
def albumNamesMatch (spotifyItem : SpotifyItem) (sourceMetadata : DetailedMetadata) : Bool :=
  jsTruthyO sourceMetadata.album && spotifyItem.album.isSome &&
    (cleanText ((spotifyItem.album.map (fun a => a.name)).getD "")
      = cleanText (sourceMetadata.album.getD ""))

/-- `calculateMatchScore` from `spotifyApi.ts`, with scores as exact
rationals. The score accumulations follow the source statement by statement;
in the track/album branch the tribute penalty multiplies the score after the
title and artist additions and before the duration and album bonuses. -/
def calculateMatchScore (spotifyItem : SpotifyItem) (sourceMetadata : DetailedMetadata) : ℚ :=
  if sourceMetadata.type = some "artist" then
    let spotifyName := cleanText spotifyItem.name
    let sourceName := cleanText sourceMetadata.artist
    let score : ℚ :=
      if spotifyName = sourceName then 1
      else if jsIncludes spotifyName sourceName || jsIncludes sourceName spotifyName then 7/10
      else 0
    let score :=
      match spotifyItem.genres, sourceMetadata.genres with
      | some gs, some sgs =>
        if (gs.filter (fun g => sgs.contains g)).length > 0 then score + 1/5 else score
      | _, _ => score
    if isTributeBand spotifyName sourceName then score * (1/10) else score
  else
    let spotifyTitle := cleanText spotifyItem.name
    let sourceTitle := cleanText sourceMetadata.title
    let spotifyArtist := normalizeArtistName (joinedArtistNames spotifyItem)
    let sourceArtist := normalizeArtistName sourceMetadata.artist
    let score : ℚ := 0
    let score :=
      if spotifyTitle = sourceTitle then score + 2/5
      else if removeFeaturingArtists spotifyTitle = removeFeaturingArtists sourceTitle then
        score + 3/10
      else if jsIncludes spotifyTitle sourceTitle || jsIncludes sourceTitle spotifyTitle then
        score + 1/5
      else score
    let score :=
      if spotifyArtist = sourceArtist then score + 2/5
      else if jsIncludes spotifyArtist sourceArtist || jsIncludes sourceArtist spotifyArtist then
        score + 1/5
      else score
    let score := if anyTributeArtist spotifyItem sourceMetadata then score * (1/10) else score
    let score := if durationClose spotifyItem sourceMetadata then score + 1/10 else score
    let score := if albumNamesMatch spotifyItem sourceMetadata then score + 1/10 else score
    score

/-- One scored entry of `findBestMatch`. -/
structure ScoredItem where
  item : SpotifyItem
  score : ℚ
  finalScore : ℚ

/-- The original-artist test of `findBestMatch`:
`item.artists?.some(a => cleanText(a.name) === cleanText(sourceMetadata.artist))`. -/
def isOriginalArtistItem (item : SpotifyItem) (sourceMetadata : DetailedMetadata) : Bool :=
  (item.artists.map
    (fun l => l.any (fun a => cleanText a.name = cleanText sourceMetadata.artist))).getD false

/-- `findBestMatch` from `spotifyApi.ts`. `none` models the falsy results of
the source (`null`, or `undefined` from `items[0]` on an empty list; callers
only pass nonempty lists). The comparator sorts are modelled by a stable
insertion sort, `Array.prototype.sort` being stable. -/
def findBestMatch (items : List SpotifyItem) (sourceMetadata : DetailedMetadata) :
    Option SpotifyItem :=
  if jsTruthyO sourceMetadata.isrc then jsIndex items 0
  else
    let scored := items.map (fun item =>
      let score := calculateMatchScore item sourceMetadata
      let popularity : ℚ := ((item.popularity.getD 0 : Nat) : ℚ)
      ScoredItem.mk item score
        (score * (if isOriginalArtistItem item sourceMetadata then 2 else 1)
          * (1 + popularity / 1000)))
    let sorted := List.insertionSort (fun a b => b.finalScore ≤ a.finalScore) scored
    match sorted with
    | [] => none
    | top :: _ =>
      if top.score > 4/5 then some top.item
      else
        let decentMatches := sorted.filter (fun s => decide (s.score > 1/2))
        if decentMatches.length > 0 then
          match decentMatches.find? (fun s => isOriginalArtistItem s.item sourceMetadata) with
          | some m => some m.item
          | none =>
            ((List.insertionSort
              (fun a b => (b.item.popularity.getD 0) ≤ a.item.popularity.getD 0)
              decentMatches).head?).map (fun s => s.item)
        else if top.score > 3/10 then some top.item else none

/-- The result record of `searchSpotifyContent`. -/
structure SpotifySearchResult where
  spotifyUrl : String
  metadata : DetailedMetadata
deriving DecidableEq, Repr

/-- `mapSpotifyResponse` from `spotifyApi.ts`. The non-artist `artist` field
joins the artist names with a comma (`undefined` from a missing artist array
is modelled by the equi-falsy `""`). -/
def mapSpotifyResponse (spotifyItem : SpotifyItem) (sourceMetadata : DetailedMetadata) :
    SpotifySearchResult :=
  let artworkUrl :=
    if sourceMetadata.type = some "artist" then
      (spotifyItem.images.bind (fun l => jsIndex l 0)).map (fun i => i.url)
    else if sourceMetadata.type = some "track" then
      ((spotifyItem.album.bind (fun a => a.images)).bind (fun l => jsIndex l 0)).map
        (fun i => i.url)
    else
      (spotifyItem.images.bind (fun l => jsIndex l 0)).map (fun i => i.url)
  if sourceMetadata.type = some "artist" then
    { spotifyUrl := spotifyItem.external_urls_spotify
      metadata :=
        { title := spotifyItem.name
          artist := spotifyItem.name
          type := sourceMetadata.type
          artworkUrl := artworkUrl
          genres := spotifyItem.genres
          popularity := spotifyItem.popularity } }
  else
    { spotifyUrl := spotifyItem.external_urls_spotify
      metadata :=
        { title := spotifyItem.name
          artist := (spotifyItem.artists.map
            (fun l => String.intercalate ", " (l.map (fun a => a.name)))).getD ""
          album := spotifyItem.album.map (fun a => a.name)
          type := sourceMetadata.type
          artworkUrl := artworkUrl
          genres := spotifyItem.genres
          popularity := spotifyItem.popularity
          releaseDate := jsOrOpt (spotifyItem.album.bind (fun a => a.release_date))
            spotifyItem.release_date
          trackNumber := spotifyItem.track_number
          totalTracks := spotifyItem.album.bind (fun a => a.total_tracks)
          discNumber := spotifyItem.disc_number
          duration := spotifyItem.duration_ms
          previewUrl := spotifyItem.preview_url } }

/-- The query loop of `searchSpotifyContent`. `search` models the external
Spotify search request for one query, returning `none` for a failed request
(the source logs and skips failures) and `some items` for the item list of
the response. The final `throw` after exhausting the queries is `none`. -/
def searchLoop (search : String → Option (List SpotifyItem))
    (sourceMetadata : DetailedMetadata) : List String → Option SpotifySearchResult
  | [] => none
  | q :: qs =>
    match search q with
    | none => searchLoop search sourceMetadata qs
    | some items =>
      if items.length = 0 then searchLoop search sourceMetadata qs
      else
        match findBestMatch items sourceMetadata with
        | some bestMatch => some (mapSpotifyResponse bestMatch sourceMetadata)
        | none => searchLoop search sourceMetadata qs

/-- `searchSpotifyContent` from `spotifyApi.ts`. -/
def searchSpotifyContent (search : String → Option (List SpotifyItem))
    (sourceMetadata : DetailedMetadata) : Option SpotifySearchResult :=
  searchLoop search sourceMetadata (generateSearchQueries sourceMetadata)

end Spotify

namespace AppleApi

open Spotify (isSmartQuote isJsWordChar stripParenAny punctCodes)

/-- The punctuation class of `cleanText` in `appleMusicApi.ts`: the same
ASCII members as the Spotify version, the range U+2000-U+206F, but only the
single code point U+2E7F (the source omits the U+2E00 range start). -/
def isPunct (c : Char) : Bool :=
  punctCodes.contains c.toNat || (0x2000 ≤ c.toNat && c.toNat ≤ 0x206F) ||
    c.toNat = 0x2E7F

/-- Matcher for `\s*T\s*` at the head of `l` for a non-whitespace character
`T`: the leading greedy whitespace run is forced maximal (no shorter run can
expose `T`, which is not whitespace). Returns the remainder after the match. -/
def surroundTail (t : Char) (l : List Char) : Option (List Char) :=
  match (l.drop ((l.takeWhile JsStr.isJsWs).length)).head? with
  | some c2 =>
    if c2 = t then
      some ((l.drop ((l.takeWhile JsStr.isJsWs).length + 1)).dropWhile JsStr.isJsWs)
    else none
  | none => none

/-- Global replacement of `\s*T\s*` by `repl`
(the ampersand and comma rewrites of `cleanText` in `appleMusicApi.ts` and
the ampersand rewrite of `normalizeTitle`). -/
def replaceSurround (t : Char) (repl : List Char) (l : List Char) : List Char :=
  JsStr.gsub (fun l' => (surroundTail t l').map
    (fun after => (repl, l'.length - after.length))) l 0

/-- `cleanText` from `appleMusicApi.ts`. The ampersand and comma rewrites run
after the punctuation pass has already replaced every `&` and `,` by a space,
so they never fire; they are embedded nonetheless. -/
def cleanText (s : String) : String :=
  jsTrim (jsToLower (String.mk
    (replaceSurround ',' " and ".data
      (replaceSurround '&' " and ".data
        (JsStr.collapseWs
          ((s.data.map (fun c => if isPunct c then ' ' else c)).filter
            (fun c => !isSmartQuote c)))))))

/-- `normalizeTitle` from `appleMusicApi.ts`: lowercase, drop curly quotes,
ampersand to `and`, drop bracketed segments, replace remaining non-word
characters by spaces, collapse whitespace, trim. -/
def normalizeTitle (title : String) : String :=
  jsTrim (String.mk (JsStr.collapseWs
    ((stripParenAny
      (replaceSurround '&' " and ".data
        ((JsStr.jsToLower title).data.filter (fun c => !isSmartQuote c)))).map
      (fun c => if isJsWordChar c || JsStr.isJsWs c then c else ' '))))

/-- `removeFeaturingArtists` from `appleMusicApi.ts` is character-for-character
the same function as the one in `spotifyApi.ts`. -/
def removeFeaturingArtists (s : String) : String :=
  Spotify.removeFeaturingArtists s

/-- `split(/ and |, /)`: alternatives tried in source order at each position. -/
def splitAndsList (l : List Char) : List (List Char) :=
  JsStr.gsplit (fun l' =>
    if JsStr.prefixAt " and ".data l' then some 5
    else if JsStr.prefixAt ", ".data l' then some 2
    else none) l 0

/-- `split(/ and |, /)` on a string. -/
def splitAnds (s : String) : List String :=
  (splitAndsList s.data).map String.mk

/-- `replace(/ and /g, repl)` on a string. -/
def replaceAllStr (s needle repl : String) : String :=
  String.mk (JsStr.replaceAllSub needle.data repl.data s.data)

/-- The four artist spellings built in `generateSearchQueries` and in the
artist-variation comparison of `calculateMatchScore`. -/
def artistVariations (artist : String) : List String :=
  [artist,
   replaceAllStr artist " and " " & ",
   replaceAllStr artist " and " ", ",
   String.intercalate " " (splitAnds artist)]

/-- `generateSearchQueries` from `appleMusicApi.ts`, ending with the
`[...new Set(queries)]` deduplication. -/
def generateSearchQueries (metadata : DetailedMetadata) : List String :=
  let title := cleanText metadata.title
  let cleanTitle := removeFeaturingArtists title
  let artist := cleanText metadata.artist
  let vars := artistVariations artist
  let queries :=
    if metadata.type = some "track" then
      (vars.map (fun v => "\"" ++ title ++ "\" \"" ++ v ++ "\""))
      ++ (vars.map (fun v => title ++ " " ++ v))
      ++ (if cleanTitle ≠ title then vars.map (fun v => cleanTitle ++ " " ++ v) else [])
      ++ (if jsTruthyO metadata.album then
            [cleanTitle ++ " " ++ artist ++ " " ++ cleanText (metadata.album.getD "")]
          else [])
      ++ (if jsTruthyO metadata.isrc then [metadata.isrc.getD ""] else [])
      ++ (match splitAnds artist with
          | i0 :: _ :: _ => [title ++ " " ++ i0]
          | _ => [])
    else if metadata.type = some "album" then
      vars.bind (fun v => ["\"" ++ title ++ "\" \"" ++ v ++ "\"", title ++ " " ++ v])
    else if metadata.type = some "artist" then
      vars.bind (fun v => ["\"" ++ v ++ "\"", v])
    else []
  jsSetDedup queries

/-- The `artwork` object of an Apple Music result. -/
structure AppleArtwork where
  url : Option String := none
deriving DecidableEq, Repr

/-- One entry of the `previews` array of an Apple Music result. -/
structure ApplePreview where
  url : String := ""
deriving DecidableEq, Repr

/-- The `attributes` record of the `AppleMusicTrack` interface. -/
structure AppleAttributes where
  name : String := ""
  artistName : String := ""
  albumName : Option String := none
  artwork : Option AppleArtwork := none
  releaseDate : Option String := none
  genreNames : Option (List String) := none
  trackNumber : Option Nat := none
  trackCount : Option Nat := none
  discNumber : Option Nat := none
  durationInMillis : Option Int := none
  isrc : Option String := none
  previews : Option (List ApplePreview) := none
  url : String := ""
deriving DecidableEq, Repr

/-- The `AppleMusicTrack` interface of `appleMusicApi.ts`; `type` holds the
raw API value (`songs`, `albums` or `artists`). -/
structure AppleMusicTrack where
  type : String := ""
  attributes : AppleAttributes := {}
deriving DecidableEq, Repr

/-- The artist-variation equality test of the track branch of
`calculateMatchScore`: some result variation equals some source variation. -/
def artistVariationPairEq (resultArtist sourceArtist : String) : Bool :=
  (artistVariations resultArtist).any (fun v1 =>
    (artistVariations sourceArtist).any (fun v2 => v1 = v2))

/-- The artist-variation containment test of the track branch of
`calculateMatchScore`. -/
def artistVariationPairIncl (resultArtist sourceArtist : String) : Bool :=
  (artistVariations resultArtist).any (fun v1 =>
    (artistVariations sourceArtist).any (fun v2 =>
      jsIncludes v1 v2 || jsIncludes v2 v1))

/-- `calculateMatchScore` from `appleMusicApi.ts`, with scores as exact
rationals. The `switch` on the content type with no default leaves the score
at zero for any other runtime value. -/
def calculateMatchScore (result : AppleMusicTrack) (sourceMetadata : DetailedMetadata) : ℚ :=
  if sourceMetadata.type = some "track" then
    let resultTitle := normalizeTitle result.attributes.name
    let sourceTitle := normalizeTitle sourceMetadata.title
    let resultArtist := cleanText result.attributes.artistName
    let sourceArtist := cleanText sourceMetadata.artist
    let score : ℚ := 0
    let score :=
      if resultTitle = sourceTitle then score + 2/5
      else if removeFeaturingArtists resultTitle = removeFeaturingArtists sourceTitle then
        score + 2/5
      else if jsIncludes resultTitle sourceTitle || jsIncludes sourceTitle resultTitle then
        score + 1/5
      else score
    let score :=
      if resultArtist = sourceArtist then score + 2/5
      else if artistVariationPairEq resultArtist sourceArtist then score + 2/5
      else if artistVariationPairIncl resultArtist sourceArtist then score + 1/5
      else score
    let score :=
      if jsTruthyO sourceMetadata.album && jsTruthyO result.attributes.albumName then
        (if cleanText (result.attributes.albumName.getD "")
            = cleanText (sourceMetadata.album.getD "") then score + 1/10 else score)
      else score
    let score :=
      if jsTruthyO sourceMetadata.isrc && result.attributes.isrc = sourceMetadata.isrc then
        score + 1/10
      else score
    score
  else if sourceMetadata.type = some "album" then
    let albumTitle := cleanText result.attributes.name
    let sourceAlbumTitle := cleanText sourceMetadata.title
    let albumArtist := cleanText result.attributes.artistName
    let sourceAlbumArtist := cleanText sourceMetadata.artist
    let score : ℚ := 0
    let score :=
      if albumTitle = sourceAlbumTitle then score + 1/2
      else if removeFeaturingArtists albumTitle = removeFeaturingArtists sourceAlbumTitle then
        score + 2/5
      else if jsIncludes albumTitle sourceAlbumTitle || jsIncludes sourceAlbumTitle albumTitle then
        score + 3/10
      else score
    let score :=
      if albumArtist = sourceAlbumArtist then score + 1/2
      else if jsIncludes albumArtist sourceAlbumArtist
          || jsIncludes sourceAlbumArtist albumArtist then score + 3/10
      else score
    score
  else if sourceMetadata.type = some "artist" then
    let artistName := cleanText result.attributes.name
    let sourceArtistName := cleanText sourceMetadata.artist
    let score : ℚ := 0
    let score :=
      if artistName = sourceArtistName then score + 4/5
      else if jsIncludes artistName sourceArtistName
          || jsIncludes sourceArtistName artistName then score + 2/5
      else score
    let score :=
      match result.attributes.genreNames, sourceMetadata.genres with
      | some gl, some sg =>
        let common := gl.filter (fun g => sg.contains g)
        if common.length > 0 then
          score + (1/5) * ((common.length : ℚ) / ((max gl.length sg.length : Nat) : ℚ))
        else score
      | _, _ => score
    score
  else 0

/-- The Apple artwork size token, `\x7bw\x7dx\x7bh\x7d` as a literal. -/
def sizeToken : String := "\x7bw\x7dx\x7bh\x7d"

/-- `mapAppleMusicResponse` from `appleMusicApi.ts`: the mapped content type
comes from the raw result's `type` field, not from the searched metadata. -/
def mapAppleMusicResponse (result : AppleMusicTrack) : DetailedMetadata :=
  let baseType :=
    if result.type = "songs" then "track"
    else if result.type = "albums" then "album"
    else "artist"
  let artworkUrl := (result.attributes.artwork.bind (fun a => a.url)).map
    (fun u => String.mk (JsStr.replaceFirstSub sizeToken.data "600x600".data u.data))
  if baseType = "track" then
    { type := some baseType
      title := result.attributes.name
      artist := result.attributes.artistName
      artworkUrl := artworkUrl
      genres := result.attributes.genreNames
      album := result.attributes.albumName
      releaseDate := result.attributes.releaseDate
      trackNumber := result.attributes.trackNumber
      totalTracks := result.attributes.trackCount
      discNumber := result.attributes.discNumber
      duration := result.attributes.durationInMillis
      isrc := result.attributes.isrc
      previewUrl := (result.attributes.previews.bind (fun l => jsIndex l 0)).map
        (fun p => p.url) }
  else if baseType = "album" then
    { type := some baseType
      title := result.attributes.name
      artist := result.attributes.artistName
      artworkUrl := artworkUrl
      genres := result.attributes.genreNames
      releaseDate := result.attributes.releaseDate
      totalTracks := result.attributes.trackCount }
  else
    { type := some baseType
      title := result.attributes.name
      artist := result.attributes.artistName
      artworkUrl := artworkUrl
      genres := result.attributes.genreNames }

/-- The search bucket selected by `searchAppleMusicContent` for a source
content type: `songs` for tracks, `albums` for albums, `artists` otherwise. -/
def searchTypesKey (sourceMetadata : DetailedMetadata) : String :=
  if sourceMetadata.type = some "track" then "songs"
  else if sourceMetadata.type = some "album" then "albums"
  else "artists"

end AppleApi

namespace LinkConv

open JsStr

/-- The parts of a WHATWG `URL` object the link parsers read. -/
structure JsUrl where
  host : String
  pathname : String
  query : String
deriving DecidableEq, Repr

/-- Model of the WHATWG `new URL(s)` constructor for the absolute
`scheme://host/path?query` URLs this program handles: `none` models the
thrown `TypeError` on input without a scheme or host. (Userinfo, ports,
percent-decoding and host normalization are outside the shapes considered.) -/
def urlParse (s : String) : Option JsUrl :=
  match splitFirstSeq "://".data s.data with
  | none => none
  | some (schemeChars, tailChars) =>
    let scheme := String.mk schemeChars
    let tail := String.mk tailChars
    if scheme = "" || !(scheme.data.all Char.isAlpha) then none
    else
      let hostChars := tail.data.takeWhile (fun c => !(c = '/' || c = '?' || c = '#'))
      let afterHost := tail.data.drop hostChars.length
      if hostChars.isEmpty then none
      else
        let pathChars := afterHost.takeWhile (fun c => !(c = '?' || c = '#'))
        let afterPath := afterHost.drop pathChars.length
        let query :=
          match afterPath with
          | '?' :: qs => String.mk (qs.takeWhile (fun c => !(c = '#')))
          | _ => ""
        some
          { host := String.mk hostChars
            pathname := if pathChars.isEmpty then "/" else String.mk pathChars
            query := query }

/-- `url.searchParams.get(key)`: the first `key=value` pair of the query
string, `none` when absent (a key without `=` yields the empty value). -/
def getSearchParam (u : JsUrl) (key : String) : Option String :=
  ((charSplit (fun c => c = '&') u.query.data).map String.mk).findSome? (fun pair =>
    match (charSplit (fun c => c = '=') pair.data).map String.mk with
    | [] => none
    | k :: vs => if k = key then some (String.intercalate "=" vs) else none)

/-- `url.pathname.split('/').filter(part => part.length > 0)`. -/
def pathParts (u : JsUrl) : List String :=
  (((charSplit (fun c => c = '/') u.pathname.data).map String.mk).filter
    (fun part => part.length != 0))

/-- The `AppleMusicMetadata` interface. The fields are declared as strings in
the source, but with fewer than two path segments the JavaScript reads
`pathParts[0]`, `pathParts[1]` and `pathParts[length - 1]` as `undefined`, so
the runtime values are modelled by `Option String`. -/
structure AppleMusicMetadata where
  type : Option String
  id : Option String
  region : Option String
  path : List String
deriving DecidableEq, Repr

/-- The `SpotifyMetadata` interface, with the same `undefined` caveat. -/
structure SpotifyMetadata where
  type : Option String
  id : Option String
deriving DecidableEq, Repr

/-- `parseAppleMusicLink` from `linkConversion.ts`: a substring check on the
raw input, the URL constructor, path-segment extraction, and the track
override from a truthy `i` query parameter. `Except.error` carries the thrown
message. -/
def parseAppleMusicLink (appleMusicLink : String) : Except String AppleMusicMetadata :=
  if !(jsIncludes appleMusicLink "music.apple.com") then
    Except.error "Invalid Apple Music link"
  else
    match urlParse appleMusicLink with
    | none => Except.error "Failed to parse Apple Music link"
    | some url =>
      let parts := pathParts url
      let region := jsIndex parts 0
      let ty := jsIndex parts 1
      let id := parts.getLast?
      let trackId := getSearchParam url "i"
      if jsTruthyO trackId then
        Except.ok { type := some "track", id := trackId, region := region, path := parts }
      else
        Except.ok { type := ty, id := id, region := region, path := parts }

/-- `parseSpotifyLink` from `linkConversion.ts`. -/
def parseSpotifyLink (spotifyLink : String) : Except String SpotifyMetadata :=
  if !(jsIncludes spotifyLink "open.spotify.com") then
    Except.error "Invalid Spotify link"
  else
    match urlParse spotifyLink with
    | none => Except.error "Failed to parse Spotify link"
    | some url =>
      let parts := pathParts url
      Except.ok { type := jsIndex parts 0, id := jsIndex parts 1 }

end LinkConv

namespace Meta

open JsStr

/-- One result record of the iTunes lookup API (the fields
`metadataExtraction.ts` reads). -/
structure ITunesResult where
  trackName : Option String := none
  collectionName : Option String := none
  artistName : Option String := none
  artworkUrl100 : Option String := none
  artworkUrl60 : Option String := none
  artworkUrl30 : Option String := none
  releaseDate : Option String := none
  primaryGenreName : Option String := none
  trackNumber : Option Nat := none
  trackCount : Option Nat := none
  discNumber : Option Nat := none
  discCount : Option Nat := none
  isrc : Option String := none
  trackTimeMillis : Option Int := none
  previewUrl : Option String := none
deriving DecidableEq, Repr

/-- `getArtworkUrl` from `metadataExtraction.ts`: the first truthy artwork
field, upgraded by rewriting the first `\d+x\d+bb` dimension token to
`600x600bb` (all quantifier boundaries of that regex are forced, so the
match is the first digit run followed by `x`, digits and `bb`). -/
def dimTokenTail (l : List Char) : Option (Nat × List Char) :=
  match l with
  | c :: _ =>
    if c.isDigit then
      let d1 := (l.takeWhile Char.isDigit).length
      match l.drop d1 with
      | 'x' :: r2 =>
        match r2 with
        | c2 :: _ =>
          if c2.isDigit then
            let d2 := (r2.takeWhile Char.isDigit).length
            match r2.drop d2 with
            | 'b' :: 'b' :: r3 => some (d1 + 1 + d2 + 2, r3)
            | _ => none
          else none
        | [] => none
      | _ => none
    else none
  | [] => none

/-- Replace the first `\d+x\d+bb` token by `600x600bb`. -/
def replaceDimToken : List Char → List Char
  | [] => []
  | c :: rest =>
    match dimTokenTail (c :: rest) with
    | some q => "600x600bb".data ++ q.2
    | none => c :: replaceDimToken rest

/-- `getArtworkUrl` from `metadataExtraction.ts`. -/
def getArtworkUrl (result : ITunesResult) : Option String :=
  let artworkUrl := jsOrOpt (jsOrOpt result.artworkUrl100 result.artworkUrl60) result.artworkUrl30
  if !jsTruthyO artworkUrl then none
  else artworkUrl.map (fun u => String.mk (replaceDimToken u.data))

/-- `extractMetadata` from `metadataExtraction.ts`, with the decoded result
list of the iTunes lookup response as an explicit argument (the network call
is the external collaborator). An empty result list is the thrown
`No metadata found` error. The title fallback chain
`trackName || collectionName || artistName` can be wholly falsy; the
`undefined` that JavaScript then assigns is modelled by the equi-falsy `""`. -/
def extractMetadata (appleMusicMetadata : LinkConv.AppleMusicMetadata)
    (results : List ITunesResult) : Except String DetailedMetadata :=
  match results with
  | [] => Except.error "No metadata found for the provided Apple Music link"
  | result :: _ =>
    Except.ok
      { type := appleMusicMetadata.type
        title := (jsOrOpt (jsOrOpt result.trackName result.collectionName)
          result.artistName).getD ""
        artist := result.artistName.getD ""
        album := result.collectionName
        artworkUrl := getArtworkUrl result
        releaseDate := result.releaseDate
        genres :=
          match result.primaryGenreName with
          | some g => if g ≠ "" then some [g] else none
          | none => none
        trackNumber := result.trackNumber
        totalTracks := result.trackCount
        discNumber := result.discNumber
        totalDiscs := result.discCount
        isrc := result.isrc
        duration := result.trackTimeMillis
        previewUrl := result.previewUrl
        popularity := some 0 }

end Meta

namespace App

open JsStr

/-- The feature-stripping of `calculateStringSimilarity` in `app.ts`: the
global replacement of the alternation matching a literal `(feat` with an
optional dot, a literal `ft` with an optional dot, or `featuring`,
whitespace, non-parenthesis content and a closing parenthesis; then the
global removal of nonempty parenthesized segments; then a trim. -/
def featAltTail (l : List Char) : Option (List Char) :=
  if lowerPrefixAt "(feat".data l then
    let r := l.drop 5
    some (if r.head? = some '.' then r.tail else r)
  else if lowerPrefixAt "ft".data l then
    let r := l.drop 2
    some (if r.head? = some '.' then r.tail else r)
  else if lowerPrefixAt "featuring".data l then
    match cutAtFirst (fun d => d = ')') (l.drop 9) with
    | some q =>
      if ((q.1.head?.map isJsWs).getD false) && decide (q.1.length ≥ 2) then some q.2
      else none
    | none => none
  else none

/-- The first global replacement of `normalizeFeatures` in
`calculateStringSimilarity`. -/
def stripFeatAlt (l : List Char) : List Char :=
  gsub (fun l' => (featAltTail l').map (fun after => ([], l'.length - after.length))) l 0

/-- The second global replacement of `normalizeFeatures`: remove a
parenthesized segment with nonempty content. -/
def stripParenNonempty (l : List Char) : List Char :=
  gsub (fun l' =>
    match l' with
    | [] => none
    | c :: rest =>
      if c = '(' then
        match cutAtFirst (fun d => d = ')') rest with
        | some q =>
          if q.1.length ≥ 1 then some ([], (c :: rest).length - q.2.length) else none
        | none => none
      else none) l 0

/-- `normalizeFeatures` from `calculateStringSimilarity` in `app.ts`. -/
def normalizeFeatures (s : String) : String :=
  jsTrim (String.mk (stripParenNonempty (stripFeatAlt s.data)))

/-- `calculateStringSimilarity` from `app.ts`. -/
def calculateStringSimilarity (str1 str2 : String) : ℚ :=
  let s1 := jsTrim (jsToLower str1)
  let s2 := jsTrim (jsToLower str2)
  if s1 = s2 then 1
  else
    let n1 := normalizeFeatures s1
    let n2 := normalizeFeatures s2
    if n1 = n2 then 19/20
    else 1/2

/-- `Math.round` (half away from zero toward positive infinity). -/
def jsRound (q : ℚ) : ℚ :=
  ((⌊q + 1/2⌋ : ℤ) : ℚ)

/-- `calculateMatchConfidence` from `app.ts`: weighted title/artist/album
similarities over the present fields, with the equal-ISRC short circuit
checked after the accumulation and before the normalization. -/
def calculateMatchConfidence (source matched : DetailedMetadata) : ℚ :=
  let score : ℚ := 0
  let factors : ℚ := 0
  let score :=
    if source.title ≠ "" && matched.title ≠ "" then
      score + calculateStringSimilarity source.title matched.title * 40
    else score
  let factors := if source.title ≠ "" && matched.title ≠ "" then factors + 40 else factors
  let score :=
    if source.artist ≠ "" && matched.artist ≠ "" then
      score + calculateStringSimilarity source.artist matched.artist * 40
    else score
  let factors := if source.artist ≠ "" && matched.artist ≠ "" then factors + 40 else factors
  let score :=
    if jsTruthyO source.album && jsTruthyO matched.album then
      score + calculateStringSimilarity (source.album.getD "") (matched.album.getD "") * 20
    else score
  let factors :=
    if jsTruthyO source.album && jsTruthyO matched.album then factors + 20 else factors
  if jsTruthyO source.isrc && jsTruthyO matched.isrc && source.isrc = matched.isrc then 100
  else if factors > 0 then jsRound ((score / factors) * 100)
  else 0

end App

namespace Spotify

/-- The title tier of the track/album branch of `calculateMatchScore`, as the
specification describes it: the full 0.4 on clean equality, 0.3 on
feature-stripped equality, 0.2 on substring containment. -/
def titleComponent (spotifyItem : SpotifyItem) (sourceMetadata : DetailedMetadata) : ℚ :=
  if cleanText spotifyItem.name = cleanText sourceMetadata.title then 2/5
  else if removeFeaturingArtists (cleanText spotifyItem.name)
      = removeFeaturingArtists (cleanText sourceMetadata.title) then 3/10
  else if jsIncludes (cleanText spotifyItem.name) (cleanText sourceMetadata.title)
      || jsIncludes (cleanText sourceMetadata.title) (cleanText spotifyItem.name) then 1/5
  else 0

/-- The artist tier of the track/album branch of `calculateMatchScore`:
0.4 on normalized equality, 0.2 on containment. -/
def artistComponent (spotifyItem : SpotifyItem) (sourceMetadata : DetailedMetadata) : ℚ :=
  if normalizeArtistName (joinedArtistNames spotifyItem)
      = normalizeArtistName sourceMetadata.artist then 2/5
  else if jsIncludes (normalizeArtistName (joinedArtistNames spotifyItem))
        (normalizeArtistName sourceMetadata.artist)
      || jsIncludes (normalizeArtistName sourceMetadata.artist)
        (normalizeArtistName (joinedArtistNames spotifyItem)) then 1/5
  else 0

/-- The duration bonus of the track/album branch. -/
def durationBonus (spotifyItem : SpotifyItem) (sourceMetadata : DetailedMetadata) : ℚ :=
  if durationClose spotifyItem sourceMetadata then 1/10 else 0

/-- The album bonus of the track/album branch. -/
def albumBonus (spotifyItem : SpotifyItem) (sourceMetadata : DetailedMetadata) : ℚ :=
  if albumNamesMatch spotifyItem sourceMetadata then 1/10 else 0

/-- Modelled from the specification claim C1's comparison baseline, "the
score the same candidate/source pair would receive without the tribute
penalty": `calculateMatchScore` with the penalty multiplication removed. -/
def calculateMatchScoreNoTribute (spotifyItem : SpotifyItem)
    (sourceMetadata : DetailedMetadata) : ℚ :=
  if sourceMetadata.type = some "artist" then
    let spotifyName := cleanText spotifyItem.name
    let sourceName := cleanText sourceMetadata.artist
    let score : ℚ :=
      if spotifyName = sourceName then 1
      else if jsIncludes spotifyName sourceName || jsIncludes sourceName spotifyName then 7/10
      else 0
    match spotifyItem.genres, sourceMetadata.genres with
    | some gs, some sgs =>
      if (gs.filter (fun g => sgs.contains g)).length > 0 then score + 1/5 else score
    | _, _ => score
  else
    titleComponent spotifyItem sourceMetadata + artistComponent spotifyItem sourceMetadata
      + durationBonus spotifyItem sourceMetadata + albumBonus spotifyItem sourceMetadata

theorem if1_add (c1 : Prop) [Decidable c1] (s x : ℚ) :
    (if c1 then s + x else s) = s + (if c1 then x else 0) := by
  split_ifs <;> ring

theorem if_add_both (c1 : Prop) [Decidable c1] (s x y : ℚ) :
    (if c1 then s + x else s + y) = s + (if c1 then x else y) := by
  split_ifs <;> ring

theorem if1_mul (c1 : Prop) [Decidable c1] (s k : ℚ) :
    (if c1 then s * k else s) = s * (if c1 then k else 1) := by
  split_ifs <;> ring

set_option maxHeartbeats 1600000 in
/-- The track/album branch of `calculateMatchScore` decomposes as the tribute
factor applied to the title and artist tiers, plus the unpenalized duration
and album bonuses. -/
theorem trackAlbum_score_decomp (spotifyItem : SpotifyItem)
    (sourceMetadata : DetailedMetadata) (h : sourceMetadata.type ≠ some "artist") :
    calculateMatchScore spotifyItem sourceMetadata =
      (if anyTributeArtist spotifyItem sourceMetadata then (1 : ℚ)/10 else 1)
          * (titleComponent spotifyItem sourceMetadata
            + artistComponent spotifyItem sourceMetadata)
        + durationBonus spotifyItem sourceMetadata
        + albumBonus spotifyItem sourceMetadata := by
  simp only [calculateMatchScore, titleComponent, artistComponent, durationBonus,
    albumBonus, if_neg h, if1_add, if_add_both, if1_mul]
  ring

end Spotify

namespace AppleApi

/-- The title tier of the track branch of the Apple Music
`calculateMatchScore`: the full 0.4 on normalized equality AND on
feature-stripped equality (the source raised the second tier from 0.3),
0.2 on containment. -/
def trackTitleComponent (result : AppleMusicTrack) (sourceMetadata : DetailedMetadata) : ℚ :=
  if normalizeTitle result.attributes.name = normalizeTitle sourceMetadata.title then 2/5
  else if removeFeaturingArtists (normalizeTitle result.attributes.name)
      = removeFeaturingArtists (normalizeTitle sourceMetadata.title) then 2/5
  else if jsIncludes (normalizeTitle result.attributes.name)
        (normalizeTitle sourceMetadata.title)
      || jsIncludes (normalizeTitle sourceMetadata.title)
        (normalizeTitle result.attributes.name) then 1/5
  else 0

/-- The artist tier of the track branch of the Apple Music
`calculateMatchScore`. -/
def trackArtistComponent (result : AppleMusicTrack) (sourceMetadata : DetailedMetadata) : ℚ :=
  if cleanText result.attributes.artistName = cleanText sourceMetadata.artist then 2/5
  else if artistVariationPairEq (cleanText result.attributes.artistName)
      (cleanText sourceMetadata.artist) then 2/5
  else if artistVariationPairIncl (cleanText result.attributes.artistName)
      (cleanText sourceMetadata.artist) then 1/5
  else 0

/-- The album bonus of the track branch of the Apple Music
`calculateMatchScore`. -/
def trackAlbumComponent (result : AppleMusicTrack) (sourceMetadata : DetailedMetadata) : ℚ :=
  if jsTruthyO sourceMetadata.album && jsTruthyO result.attributes.albumName then
    (if cleanText (result.attributes.albumName.getD "")
        = cleanText (sourceMetadata.album.getD "") then 1/10 else 0)
  else 0

/-- The ISRC bonus of the track branch of the Apple Music
`calculateMatchScore`. -/
def trackIsrcComponent (result : AppleMusicTrack) (sourceMetadata : DetailedMetadata) : ℚ :=
  if jsTruthyO sourceMetadata.isrc && result.attributes.isrc = sourceMetadata.isrc then 1/10
  else 0

/-- The title tier of the album branch of the Apple Music
`calculateMatchScore`: 0.5, 0.4 and 0.3 — the title is worth half of an
album score, not 40%. -/
def albumTitleComponent (result : AppleMusicTrack) (sourceMetadata : DetailedMetadata) : ℚ :=
  if cleanText result.attributes.name = cleanText sourceMetadata.title then 1/2
  else if removeFeaturingArtists (cleanText result.attributes.name)
      = removeFeaturingArtists (cleanText sourceMetadata.title) then 2/5
  else if jsIncludes (cleanText result.attributes.name) (cleanText sourceMetadata.title)
      || jsIncludes (cleanText sourceMetadata.title) (cleanText result.attributes.name) then 3/10
  else 0

/-- The artist tier of the album branch of the Apple Music
`calculateMatchScore`. -/
def albumArtistComponent (result : AppleMusicTrack) (sourceMetadata : DetailedMetadata) : ℚ :=
  if cleanText result.attributes.artistName = cleanText sourceMetadata.artist then 1/2
  else if jsIncludes (cleanText result.attributes.artistName) (cleanText sourceMetadata.artist)
      || jsIncludes (cleanText sourceMetadata.artist)
        (cleanText result.attributes.artistName) then 3/10
  else 0

set_option maxHeartbeats 1600000 in
/-- The track branch of the Apple Music `calculateMatchScore` is the plain
sum of its four components. -/
theorem track_score_decomp (result : AppleMusicTrack) (sourceMetadata : DetailedMetadata)
    (h : sourceMetadata.type = some "track") :
    calculateMatchScore result sourceMetadata =
      trackTitleComponent result sourceMetadata + trackArtistComponent result sourceMetadata
        + trackAlbumComponent result sourceMetadata
        + trackIsrcComponent result sourceMetadata := by
  simp only [calculateMatchScore, trackTitleComponent, trackArtistComponent,
    trackAlbumComponent, trackIsrcComponent, if_pos h, Spotify.if1_add,
    Spotify.if_add_both]
  ring

set_option maxHeartbeats 1600000 in
/-- The album branch of the Apple Music `calculateMatchScore` is the sum of
its title and artist components. -/
theorem album_score_decomp (result : AppleMusicTrack) (sourceMetadata : DetailedMetadata)
    (h : sourceMetadata.type = some "album") :
    calculateMatchScore result sourceMetadata =
      albumTitleComponent result sourceMetadata
        + albumArtistComponent result sourceMetadata := by
  have hne : sourceMetadata.type ≠ some "track" := by rw [h]; decide
  simp only [calculateMatchScore, albumTitleComponent, albumArtistComponent,
    if_neg hne, if_pos h, Spotify.if1_add, Spotify.if_add_both]
  ring

end AppleApi

namespace JsStr

theorem mem_dedupFirst : ∀ (l seen : List String) (a : String),
    a ∈ dedupFirst seen l ↔ (a ∈ l ∧ a ∉ seen) := by
  intro l
  induction l with
  | nil => intro seen a; simp [dedupFirst]
  | cons q qs ih =>
    intro seen a
    simp only [dedupFirst]
    by_cases hc : seen.contains q = true
    · rw [if_pos hc, ih seen a]
      have hq : q ∈ seen := by
        rw [List.contains_eq_any_beq] at hc
        simp only [List.any_eq_true, beq_iff_eq] at hc
        obtain ⟨x, hx, hxe⟩ := hc
        rwa [hxe]
      simp only [List.mem_cons]
      constructor
      · rintro ⟨h1, h2⟩
        exact ⟨Or.inr h1, h2⟩
      · rintro ⟨h1 | h1, h2⟩
        · exact absurd (h1 ▸ hq) h2
        · exact ⟨h1, h2⟩
    · rw [if_neg hc]
      have hq : q ∉ seen := by
        intro hmem
        apply hc
        rw [List.contains_eq_any_beq]
        simp only [List.any_eq_true, beq_iff_eq]
        exact ⟨q, hmem, rfl⟩
      simp only [List.mem_cons, ih (q :: seen) a, List.mem_cons]
      constructor
      · rintro (h1 | ⟨h1, h2⟩)
        · exact ⟨Or.inl h1, h1 ▸ hq⟩
        · refine ⟨Or.inr h1, ?_⟩
          intro hs
          exact h2 (Or.inr hs)
      · rintro ⟨h1 | h1, h2⟩
        · exact Or.inl h1
        · by_cases haq : a = q
          · exact Or.inl haq
          · exact Or.inr ⟨h1, fun hs => (by
              rcases hs with hs | hs
              · exact haq hs
              · exact h2 hs)⟩

theorem mem_jsSetDedup (l : List String) (a : String) :
    a ∈ jsSetDedup l ↔ a ∈ l := by
  rw [jsSetDedup, mem_dedupFirst]
  simp

theorem jsTrimList_eq_rdropWhile (l : List Char) :
    jsTrimList l = List.rdropWhile isJsWs (l.dropWhile isJsWs) := rfl

theorem jsTrimList_idem (l : List Char) : jsTrimList (jsTrimList l) = jsTrimList l := by
  rw [jsTrimList_eq_rdropWhile, jsTrimList_eq_rdropWhile]
  have hpre : List.rdropWhile isJsWs (l.dropWhile isJsWs) <+: l.dropWhile isJsWs :=
    List.rdropWhile_prefix isJsWs _
  have hdd : (l.dropWhile isJsWs).dropWhile isJsWs = l.dropWhile isJsWs :=
    List.dropWhile_idempotent isJsWs l
  have hinner : (List.rdropWhile isJsWs (l.dropWhile isJsWs)).dropWhile isJsWs
      = List.rdropWhile isJsWs (l.dropWhile isJsWs) := by
    rw [List.dropWhile_eq_self_iff]
    intro hl
    have h0 : (List.rdropWhile isJsWs (l.dropWhile isJsWs)).get ⟨0, hl⟩
        = (l.dropWhile isJsWs).get ⟨0, by
            have := hpre.length_le
            omega⟩ := by
      simp only [List.get_eq_getElem]
      rw [hpre.getElem hl]
    rw [h0]
    have := List.dropWhile_eq_self_iff.mp hdd
    exact this _
  rw [hinner, List.rdropWhile_idempotent]

theorem jsTrimList_sublist (l : List Char) : (jsTrimList l).Sublist l := by
  rw [jsTrimList_eq_rdropWhile]
  exact ((List.rdropWhile_prefix isJsWs _).sublist).trans (List.dropWhile_sublist _)

end JsStr

namespace Spotify

theorem stripVerParen_id : ∀ l : List Char, '(' ∉ l → stripVerParen l = l := by
  intro l
  induction l with
  | nil => intro _; rfl
  | cons c rest ih =>
    intro h
    have hc : ¬(c = '(') := fun he => h (he ▸ List.mem_cons_self c rest)
    have hr : '(' ∉ rest := fun hm => h (List.mem_cons_of_mem c hm)
    show gsub verParenMatch (c :: rest) 0 = c :: rest
    simp only [gsub, verParenMatch, if_neg hc]
    show c :: stripVerParen rest = c :: rest
    rw [ih hr]

theorem stripVerBracket_id : ∀ l : List Char, '[' ∉ l → stripVerBracket l = l := by
  intro l
  induction l with
  | nil => intro _; rfl
  | cons c rest ih =>
    intro h
    have hc : ¬(c = '[') := fun he => h (he ▸ List.mem_cons_self c rest)
    have hr : '[' ∉ rest := fun hm => h (List.mem_cons_of_mem c hm)
    show gsub verBracketMatch (c :: rest) 0 = c :: rest
    simp only [gsub, verBracketMatch, if_neg hc]
    show c :: stripVerBracket rest = c :: rest
    rw [ih hr]

theorem stripYear_id : ∀ l : List Char, '(' ∉ l → '[' ∉ l → stripYear l = l := by
  intro l
  induction l with
  | nil => intro _ _; rfl
  | cons c rest ih =>
    intro h1 h2
    have hc : ¬(c = '(' || c = '[') = true := by
      simp only [Bool.or_eq_true, decide_eq_true_eq]
      rintro (he | he)
      · exact h1 (he ▸ List.mem_cons_self c rest)
      · exact h2 (he ▸ List.mem_cons_self c rest)
    have hr1 : '(' ∉ rest := fun hm => h1 (List.mem_cons_of_mem c hm)
    have hr2 : '[' ∉ rest := fun hm => h2 (List.mem_cons_of_mem c hm)
    show gsub yearMatch (c :: rest) 0 = c :: rest
    simp only [gsub, yearMatch, if_neg hc]
    show c :: stripYear rest = c :: rest
    rw [ih hr1 hr2]

end Spotify

/-- The tribute-penalty counterexample candidate for claims C1:
a non-matching title, a tribute artist, a close duration and an equal album. -/
def cexTributeItem : Spotify.SpotifyItem :=
  { name := "totally different", artists := some [{ name := "queen tribute" }],
    album := some { name := "alb" }, duration_ms := some 200500 }

/-- The tribute-penalty counterexample source for claim C1. -/
def cexTributeSrc : DetailedMetadata :=
  { title := "zzz", artist := "queen", type := some "track",
    duration := some 200000, album := some "alb" }

/-- Claim C1 (amended): in the track/album branch of the Spotify scorer the
0.1 tribute multiplier is applied after the title and artist components are
summed but before the duration and album bonuses, so a penalized score equals
0.1 times the title and artist components plus the unpenalized duration and
album bonuses (and it can therefore exceed 0.1 times the score the same pair
would receive without the penalty). -/
theorem c1_tribute_penalty_placement (spotifyItem : Spotify.SpotifyItem)
    (sourceMetadata : DetailedMetadata)
    (hty : sourceMetadata.type ≠ some "artist")
    (htrib : Spotify.anyTributeArtist spotifyItem sourceMetadata = true) :
    Spotify.calculateMatchScore spotifyItem sourceMetadata =
      (1/10) * (Spotify.titleComponent spotifyItem sourceMetadata
          + Spotify.artistComponent spotifyItem sourceMetadata)
        + Spotify.durationBonus spotifyItem sourceMetadata
        + Spotify.albumBonus spotifyItem sourceMetadata := by
  rw [Spotify.trackAlbum_score_decomp spotifyItem sourceMetadata hty, if_pos htrib]

unseal Rat.add Rat.mul Rat.inv Rat.sub Rat.ofScientific in
/-- Claim C1, as stated, is false on the code: for the concrete tribute pair
`cexTributeItem`/`cexTributeSrc` the penalized score is 11/50, while the same
pair scores 2/5 without the tribute penalty, and 11/50 is more than
0.1 times 2/5 — the multiplier misses the duration and album bonuses. -/
theorem c1_counterexample :
    Spotify.anyTributeArtist cexTributeItem cexTributeSrc = true ∧
    Spotify.calculateMatchScore cexTributeItem cexTributeSrc = 11/50 ∧
    Spotify.calculateMatchScoreNoTribute cexTributeItem cexTributeSrc = 2/5 ∧
    ¬(Spotify.calculateMatchScore cexTributeItem cexTributeSrc ≤
        (1/10) * Spotify.calculateMatchScoreNoTribute cexTributeItem cexTributeSrc) := by
  decide

unseal Rat.add Rat.mul Rat.inv Rat.sub Rat.ofScientific in
/-- Witness for the amended claim C1 at the concrete tribute pair. -/
theorem c1_witness :
    cexTributeSrc.type ≠ some "artist" ∧
    Spotify.anyTributeArtist cexTributeItem cexTributeSrc = true ∧
    Spotify.calculateMatchScore cexTributeItem cexTributeSrc =
      (1/10) * (Spotify.titleComponent cexTributeItem cexTributeSrc
          + Spotify.artistComponent cexTributeItem cexTributeSrc)
        + Spotify.durationBonus cexTributeItem cexTributeSrc
        + Spotify.albumBonus cexTributeItem cexTributeSrc :=
  ⟨by decide, by decide,
    c1_tribute_penalty_placement cexTributeItem cexTributeSrc (by decide) (by decide)⟩

/-- The title-tier counterexample result for claim C2: its normalized title
differs from the source's but agrees after feature-stripping, the artists are
unrelated, and no album or ISRC is present. -/
def cexTierResult : AppleApi.AppleMusicTrack :=
  { type := "songs", attributes := { name := "song", artistName := "bbb" } }

/-- The title-tier counterexample source for claim C2. -/
def cexTierSrc : DetailedMetadata :=
  { title := "song feat bob", artist := "aaa", type := some "track" }

/-- Claim C2 (amended): the Spotify scorer weights the title at 40% of a
track or album score with tiers 0.4 (clean-equal), 0.3 (feature-stripped
equal) and 0.2 (substring); the Apple Music scorer gives a track title the
full 0.4 also in the feature-stripped tier (0.2 for substring), and weights
an album title at 50% with tiers 0.5, 0.4 and 0.3. -/
theorem c2_title_weight_tiers :
    (∀ (item : Spotify.SpotifyItem) (src : DetailedMetadata),
      src.type = some "track" ∨ src.type = some "album" →
      Spotify.calculateMatchScore item src =
        (if Spotify.anyTributeArtist item src then (1 : ℚ)/10 else 1)
            * (Spotify.titleComponent item src + Spotify.artistComponent item src)
          + Spotify.durationBonus item src + Spotify.albumBonus item src) ∧
    (∀ (r : AppleApi.AppleMusicTrack) (src : DetailedMetadata),
      src.type = some "track" →
      AppleApi.calculateMatchScore r src =
        AppleApi.trackTitleComponent r src + AppleApi.trackArtistComponent r src
          + AppleApi.trackAlbumComponent r src + AppleApi.trackIsrcComponent r src) ∧
    (∀ (r : AppleApi.AppleMusicTrack) (src : DetailedMetadata),
      src.type = some "album" →
      AppleApi.calculateMatchScore r src =
        AppleApi.albumTitleComponent r src + AppleApi.albumArtistComponent r src) := by
  refine ⟨fun item src h => ?_, fun r src h => AppleApi.track_score_decomp r src h,
    fun r src h => AppleApi.album_score_decomp r src h⟩
  apply Spotify.trackAlbum_score_decomp
  rcases h with h | h <;> rw [h] <;> decide

unseal Rat.add Rat.mul Rat.inv Rat.sub Rat.ofScientific in
/-- Claim C2, as stated, is false on the code: for `cexTierResult` against
`cexTierSrc` the titles are feature-stripped-equal but not clean-equal and
every other component is zero, so the claim's 75% tier would make the score
0.3; the Apple Music scorer returns 0.4. -/
theorem c2_counterexample :
    AppleApi.normalizeTitle cexTierResult.attributes.name
        ≠ AppleApi.normalizeTitle cexTierSrc.title ∧
    AppleApi.removeFeaturingArtists (AppleApi.normalizeTitle cexTierResult.attributes.name)
        = AppleApi.removeFeaturingArtists (AppleApi.normalizeTitle cexTierSrc.title) ∧
    AppleApi.calculateMatchScore cexTierResult cexTierSrc = 2/5 ∧
    ¬ AppleApi.calculateMatchScore cexTierResult cexTierSrc = 3/10 := by
  decide

unseal Rat.add Rat.mul Rat.inv Rat.sub Rat.ofScientific in
/-- Witness for the amended claim C2 at concrete inputs for all three
scoring branches. -/
theorem c2_witness :
    AppleApi.calculateMatchScore cexTierResult cexTierSrc =
      AppleApi.trackTitleComponent cexTierResult cexTierSrc
        + AppleApi.trackArtistComponent cexTierResult cexTierSrc
        + AppleApi.trackAlbumComponent cexTierResult cexTierSrc
        + AppleApi.trackIsrcComponent cexTierResult cexTierSrc ∧
    AppleApi.trackTitleComponent cexTierResult cexTierSrc = 2/5 ∧
    Spotify.calculateMatchScore cexTributeItem cexTributeSrc =
      (if Spotify.anyTributeArtist cexTributeItem cexTributeSrc then (1 : ℚ)/10 else 1)
          * (Spotify.titleComponent cexTributeItem cexTributeSrc
            + Spotify.artistComponent cexTributeItem cexTributeSrc)
        + Spotify.durationBonus cexTributeItem cexTributeSrc
        + Spotify.albumBonus cexTributeItem cexTributeSrc ∧
    AppleApi.calculateMatchScore cexTierResult
        { cexTierSrc with type := some "album" } =
      AppleApi.albumTitleComponent cexTierResult { cexTierSrc with type := some "album" }
        + AppleApi.albumArtistComponent cexTierResult { cexTierSrc with type := some "album" } :=
  ⟨c2_title_weight_tiers.2.1 cexTierResult cexTierSrc (by decide), by decide,
    c2_title_weight_tiers.1 cexTributeItem cexTributeSrc (Or.inl (by decide)),
    c2_title_weight_tiers.2.2 cexTierResult { cexTierSrc with type := some "album" } (by decide)⟩

/-- The query-generation source for claim C3: a track with a known ISRC. -/
def cexIsrcSrc : DetailedMetadata :=
  { title := "a", artist := "b", type := some "track", isrc := some "USRC17607839" }

/-- The `[...new Set]` deduplication keeps the first query first. -/
theorem jsSetDedup_head (q : String) (qs : List String) :
    (JsStr.jsSetDedup (q :: qs)).head? = some q := by
  simp [JsStr.jsSetDedup, JsStr.dedupFirst, List.contains]

/-- Claim C3 (amended): for a track with a truthy ISRC, the Spotify query
generator emits `isrc:` followed by the code as its first query, before any
title/artist query; the Apple Music query generator never leads with the
ISRC — whatever the source carries, its first query is the quoted
title/artist query — and it emits the bare code with no `isrc:` prefix
among its queries. -/
theorem c3_isrc_query_order :
    (∀ (md : DetailedMetadata) (code : String), md.type = some "track" →
      md.isrc = some code → code ≠ "" →
      (Spotify.generateSearchQueries md).head? = some ("isrc:" ++ code)) ∧
    (∀ md : DetailedMetadata, md.type = some "track" →
      (AppleApi.generateSearchQueries md).head? =
        some ("\"" ++ AppleApi.cleanText md.title ++ "\" \"" ++
          AppleApi.cleanText md.artist ++ "\"")) ∧
    (∀ (md : DetailedMetadata) (code : String), md.type = some "track" →
      md.isrc = some code → code ≠ "" →
      code ∈ AppleApi.generateSearchQueries md) := by
  refine ⟨?_, ?_, ?_⟩
  · intro md code hty hisrc hne
    have hemp : code.isEmpty = false := by
      cases hcode : code.isEmpty
      · rfl
      · exact absurd ((String.isEmpty_iff code).mp hcode) hne
    have htyne : ¬ md.type = some "artist" := by rw [hty]; decide
    have htruthy : JsStr.jsTruthyO (some code) = true := by
      simp [JsStr.jsTruthyO, hemp]
    simp only [Spotify.generateSearchQueries, if_neg htyne, hisrc, htruthy,
      eq_self_iff_true, if_true, Option.getD_some, List.singleton_append,
      List.cons_append, List.head?_cons]
  · intro md hty
    simp only [AppleApi.generateSearchQueries, hty, eq_self_iff_true, if_true,
      AppleApi.artistVariations, List.map, List.cons_append]
    exact jsSetDedup_head _ _
  · intro md code hty hisrc hne
    have hemp : code.isEmpty = false := by
      cases hcode : code.isEmpty
      · rfl
      · exact absurd ((String.isEmpty_iff code).mp hcode) hne
    have htruthy : JsStr.jsTruthyO (some code) = true := by
      simp [JsStr.jsTruthyO, hemp]
    simp only [AppleApi.generateSearchQueries, hty, eq_self_iff_true, if_true,
      JsStr.mem_jsSetDedup, hisrc, htruthy, Option.getD_some, List.mem_append,
      List.mem_singleton]
    tauto

/-- Claim C3, as stated, is false on the code: for the concrete track source
`cexIsrcSrc`, the Apple Music query generator's first query is the quoted
title/artist query, the exact string `isrc:USRC17607839` never occurs among
its queries, and the bare code only appears after the title/artist query. -/
theorem c3_counterexample :
    (AppleApi.generateSearchQueries cexIsrcSrc).head? = some "\"a\" \"b\"" ∧
    "isrc:USRC17607839" ∉ AppleApi.generateSearchQueries cexIsrcSrc ∧
    AppleApi.generateSearchQueries cexIsrcSrc = ["\"a\" \"b\"", "a b", "USRC17607839"] := by
  decide

/-- Witness for the amended claim C3 at the concrete track source. -/
theorem c3_witness :
    (Spotify.generateSearchQueries cexIsrcSrc).head? = some ("isrc:" ++ "USRC17607839") ∧
    (AppleApi.generateSearchQueries cexIsrcSrc).head? =
      some ("\"" ++ AppleApi.cleanText cexIsrcSrc.title ++ "\" \"" ++
        AppleApi.cleanText cexIsrcSrc.artist ++ "\"") ∧
    "USRC17607839" ∈ AppleApi.generateSearchQueries cexIsrcSrc :=
  ⟨c3_isrc_query_order.1 cexIsrcSrc "USRC17607839" (by decide) (by decide) (by decide),
    c3_isrc_query_order.2.1 cexIsrcSrc (by decide),
    c3_isrc_query_order.2.2 cexIsrcSrc "USRC17607839" (by decide) (by decide) (by decide)⟩

deriving instance DecidableEq for Except

/-- The confidence source for claim C4: texts entirely different from the
matched side, ISRC equal. -/
def c4Source : DetailedMetadata :=
  { title := "Completely Different Title", artist := "Artist One",
    type := some "track", isrc := some "USRC17607839" }

/-- The confidence match for claim C4. -/
def c4Matched : DetailedMetadata :=
  { title := "Another Title", artist := "Artist Two",
    type := some "track", isrc := some "USRC17607839" }

/-- Claim C4: when both sides carry the same truthy ISRC, the confidence
calculator returns exactly 100, whatever the title, artist and album texts
are. -/
theorem c4_isrc_confidence (source matched : DetailedMetadata) (code : String)
    (h1 : source.isrc = some code) (h2 : matched.isrc = some code) (h3 : code ≠ "") :
    App.calculateMatchConfidence source matched = 100 := by
  have hemp : code.isEmpty = false := by
    cases hcode : code.isEmpty
    · rfl
    · exact absurd ((String.isEmpty_iff code).mp hcode) h3
  have htruthy : JsStr.jsTruthyO (some code) = true := by
    simp [JsStr.jsTruthyO, hemp]
  have hdec : decide (some code = some code) = true := by simp
  simp only [App.calculateMatchConfidence, h1, h2, htruthy, hdec, Bool.true_and,
    Bool.and_self, eq_self_iff_true, if_true, decide_True, decide_true_eq_true]

/-- Witness for claim C4: the concrete pair with equal ISRCs and divergent
texts scores exactly 100. -/
theorem c4_witness :
    App.calculateMatchConfidence c4Source c4Matched = 100 ∧
    c4Source.title ≠ c4Matched.title ∧ c4Source.artist ≠ c4Matched.artist :=
  ⟨c4_isrc_confidence c4Source c4Matched "USRC17607839" rfl rfl (by decide),
    by decide, by decide⟩

/-- Claim C5: a truthy `i` query parameter forces the parsed Apple Music link
to content type `track` with the parameter as id, overriding the path-derived
type and id; the claim's concrete URL parses to track `1440857782` in region
`us`. -/
theorem c5_track_param_override :
    (∀ (link : String) (u : LinkConv.JsUrl) (v : String),
      JsStr.jsIncludes link "music.apple.com" = true →
      LinkConv.urlParse link = some u →
      LinkConv.getSearchParam u "i" = some v → v ≠ "" →
      LinkConv.parseAppleMusicLink link =
        Except.ok { type := some "track", id := some v,
                    region := JsStr.jsIndex (LinkConv.pathParts u) 0,
                    path := LinkConv.pathParts u }) ∧
    LinkConv.parseAppleMusicLink
        "https://music.apple.com/us/album/some-song/1440857781?i=1440857782" =
      Except.ok { type := some "track", id := some "1440857782", region := some "us",
                  path := ["us", "album", "some-song", "1440857781"] } := by
  constructor
  · intro link u v hincl hurl hparam hne
    have hemp : v.isEmpty = false := by
      cases hcode : v.isEmpty
      · rfl
      · exact absurd ((String.isEmpty_iff v).mp hcode) hne
    have htruthy : JsStr.jsTruthyO (some v) = true := by
      simp [JsStr.jsTruthyO, hemp]
    simp only [LinkConv.parseAppleMusicLink, hincl, Bool.not_true, Bool.false_eq_true,
      if_false, hurl, hparam, htruthy, eq_self_iff_true, if_true]
  · decide

/-- Witness for claim C5's universal part at the claim's concrete URL. -/
theorem c5_witness :
    LinkConv.parseAppleMusicLink
        "https://music.apple.com/us/album/some-song/1440857781?i=1440857782" =
      Except.ok { type := some "track", id := some "1440857782",
                  region := JsStr.jsIndex (LinkConv.pathParts
                    { host := "music.apple.com",
                      pathname := "/us/album/some-song/1440857781",
                      query := "i=1440857782" }) 0,
                  path := LinkConv.pathParts
                    { host := "music.apple.com",
                      pathname := "/us/album/some-song/1440857781",
                      query := "i=1440857782" } } :=
  c5_track_param_override.1
    "https://music.apple.com/us/album/some-song/1440857781?i=1440857782"
    { host := "music.apple.com", pathname := "/us/album/some-song/1440857781",
      query := "i=1440857782" }
    "1440857782" (by decide) (by decide) (by decide) (by decide)

/-- Is an `Except` value a success? (`Except.isOk` of the standard library,
restated here so the parser claims can quantify over it.) -/
def exceptIsOk : Except String α → Bool
  | Except.ok _ => true
  | Except.error _ => false

/-- Claim C6 (amended): the link parsers fail exactly when the raw input does
not contain the platform domain as a substring or the URL constructor
rejects the input; absent path segments do not cause a failure (the parser
then succeeds with undefined fields). -/
theorem c6_parser_failure_condition :
    (∀ link : String, exceptIsOk (LinkConv.parseAppleMusicLink link) =
      (JsStr.jsIncludes link "music.apple.com" && (LinkConv.urlParse link).isSome)) ∧
    (∀ link : String, exceptIsOk (LinkConv.parseSpotifyLink link) =
      (JsStr.jsIncludes link "open.spotify.com" && (LinkConv.urlParse link).isSome)) := by
  constructor
  · intro link
    cases hb : JsStr.jsIncludes link "music.apple.com" with
    | false => simp [LinkConv.parseAppleMusicLink, hb, exceptIsOk]
    | true =>
      cases hu : LinkConv.urlParse link with
      | none => simp [LinkConv.parseAppleMusicLink, hb, hu, exceptIsOk]
      | some u =>
        simp only [LinkConv.parseAppleMusicLink, hb, hu, Bool.not_true,
          Bool.false_eq_true, if_false, Option.isSome_some, Bool.and_true, Bool.and_self]
        split <;> rfl
  · intro link
    cases hb : JsStr.jsIncludes link "open.spotify.com" with
    | false => simp [LinkConv.parseSpotifyLink, hb, exceptIsOk]
    | true =>
      cases hu : LinkConv.urlParse link with
      | none => simp [LinkConv.parseSpotifyLink, hb, hu, exceptIsOk]
      | some u =>
        simp [LinkConv.parseSpotifyLink, hb, hu, exceptIsOk]

/-- Claim C6, as stated, is false on the code: `https://music.apple.com` has
the expected host and no path segments, so the claim requires an
invalid-link failure, but `parseAppleMusicLink` succeeds and returns a
record whose type, id and region are all `undefined`. -/
theorem c6_counterexample :
    LinkConv.parseAppleMusicLink "https://music.apple.com" =
      Except.ok { type := none, id := none, region := none, path := [] } ∧
    LinkConv.urlParse "https://music.apple.com" =
      some { host := "music.apple.com", pathname := "/", query := "" } ∧
    LinkConv.pathParts { host := "music.apple.com", pathname := "/", query := "" } = [] := by
  decide

/-- Claim C7: `normalizeArtistName` sorts the cleaned artist segments before
joining them, so any two artist strings whose cleaned segment lists are
permutations of one another normalize to the same string; in particular
`Bob & Alice` and `Alice & Bob` normalize identically. -/
theorem c7_artist_order_independence :
    (∀ a b : String, (Spotify.artistSegments a).Perm (Spotify.artistSegments b) →
      Spotify.normalizeArtistName a = Spotify.normalizeArtistName b) ∧
    Spotify.normalizeArtistName "Bob & Alice" = Spotify.normalizeArtistName "Alice & Bob" := by
  constructor
  · intro a b h
    unfold Spotify.normalizeArtistName
    congr 1
    exact List.eq_of_perm_of_sorted
      (((List.perm_insertionSort JsStr.jsStrLe _).trans h).trans
        (List.perm_insertionSort JsStr.jsStrLe _).symm)
      (List.sorted_insertionSort JsStr.jsStrLe _)
      (List.sorted_insertionSort JsStr.jsStrLe _)
  · decide

/-- Witness for claim C7 at `Bob & Alice` versus `Alice & Bob`. -/
theorem c7_witness :
    (Spotify.artistSegments "Bob & Alice").Perm (Spotify.artistSegments "Alice & Bob") ∧
    Spotify.normalizeArtistName "Bob & Alice" = Spotify.normalizeArtistName "Alice & Bob" :=
  ⟨by decide, c7_artist_order_independence.1 "Bob & Alice" "Alice & Bob" (by decide)⟩

/-- Claim C8, as stated, is false on the code: `stripVersionInfo` is not
idempotent. On `((1999) remix)` the year pass removes the inner `(1999)`,
leaving `( remix)`, which the parenthesis pass of a second application then
removes entirely. -/
theorem c8_counterexample :
    Spotify.stripVersionInfo "((1999) remix)" = "( remix)" ∧
    Spotify.stripVersionInfo (Spotify.stripVersionInfo "((1999) remix)") = "" ∧
    Spotify.stripVersionInfo (Spotify.stripVersionInfo "((1999) remix)") ≠
      Spotify.stripVersionInfo "((1999) remix)" := by decide

/-- Claim C8 (amended): `stripVersionInfo` is idempotent on every input that
contains no opening parenthesis and no opening square bracket: there all
three removal passes are the identity and the function reduces to trimming,
which is idempotent. -/
theorem c8_strip_version_idempotent (s : String)
    (h1 : '(' ∉ s.data) (h2 : '[' ∉ s.data) :
    Spotify.stripVersionInfo (Spotify.stripVersionInfo s) = Spotify.stripVersionInfo s := by
  have g1 : '(' ∉ JsStr.jsTrimList s.data :=
    fun hm => h1 ((JsStr.jsTrimList_sublist s.data).subset hm)
  have g2 : '[' ∉ JsStr.jsTrimList s.data :=
    fun hm => h2 ((JsStr.jsTrimList_sublist s.data).subset hm)
  unfold Spotify.stripVersionInfo
  rw [Spotify.stripVerParen_id s.data h1, Spotify.stripVerBracket_id s.data h2,
    Spotify.stripYear_id s.data h1 h2]
  show JsStr.jsTrim (String.mk (Spotify.stripYear (Spotify.stripVerBracket
    (Spotify.stripVerParen (JsStr.jsTrimList s.data))))) = JsStr.jsTrim (String.mk s.data)
  rw [Spotify.stripVerParen_id _ g1, Spotify.stripVerBracket_id _ g2,
    Spotify.stripYear_id _ g1 g2]
  show String.mk (JsStr.jsTrimList (JsStr.jsTrimList s.data))
    = String.mk (JsStr.jsTrimList s.data)
  rw [JsStr.jsTrimList_idem]

/-- Witness for the amended claim C8 at a bracket-free input. -/
theorem c8_witness :
    '(' ∉ "  plain title  ".data ∧ '[' ∉ "  plain title  ".data ∧
    Spotify.stripVersionInfo (Spotify.stripVersionInfo "  plain title  ") =
      Spotify.stripVersionInfo "  plain title  " :=
  ⟨by decide, by decide,
    c8_strip_version_idempotent "  plain title  " (by decide) (by decide)⟩

/-- Claim C9: the content type is preserved along the conversion chain.
`extractMetadata` copies the parsed link's type into the fetched metadata;
`mapSpotifyResponse` copies the source metadata's type into the matched
metadata; `mapAppleMusicResponse` rebuilds the type from the result's raw
API type, which equals the source's type whenever the result lies in the
search bucket requested for that source and the source type is one of the
three valid content types. -/
theorem c9_content_type_preserved :
    (∀ (am : LinkConv.AppleMusicMetadata) (results : List Meta.ITunesResult)
        (md : DetailedMetadata),
      Meta.extractMetadata am results = Except.ok md → md.type = am.type) ∧
    (∀ (item : Spotify.SpotifyItem) (src : DetailedMetadata),
      (Spotify.mapSpotifyResponse item src).metadata.type = src.type) ∧
    (∀ (r : AppleApi.AppleMusicTrack) (src : DetailedMetadata) (t : String),
      src.type = some t → (t = "track" ∨ t = "album" ∨ t = "artist") →
      r.type = AppleApi.searchTypesKey src →
      (AppleApi.mapAppleMusicResponse r).type = src.type) := by
  refine ⟨?_, ?_, ?_⟩
  · intro am results md h
    cases results with
    | nil => exact absurd h (by simp [Meta.extractMetadata])
    | cons r rest =>
      simp only [Meta.extractMetadata] at h
      cases h
      rfl
  · intro item src
    simp only [Spotify.mapSpotifyResponse]
    split <;> rfl
  · intro r src t ht hvalid hkey
    rcases hvalid with h1 | h1 | h1
    · subst h1
      have hk : r.type = "songs" := by
        simpa +decide [AppleApi.searchTypesKey, ht] using hkey
      simp +decide [AppleApi.mapAppleMusicResponse, hk, ht]
    · subst h1
      have hk : r.type = "albums" := by
        simpa +decide [AppleApi.searchTypesKey, ht] using hkey
      simp +decide [AppleApi.mapAppleMusicResponse, hk, ht]
    · subst h1
      have hk : r.type = "artists" := by
        simpa +decide [AppleApi.searchTypesKey, ht] using hkey
      simp +decide [AppleApi.mapAppleMusicResponse, hk, ht]

/-- The parsed Apple Music link of the C9 witness. -/
def c9Apple : LinkConv.AppleMusicMetadata :=
  { type := some "track", id := some "123", region := some "us",
    path := ["us", "album", "x", "123"] }

/-- The iTunes lookup result of the C9 witness. -/
def c9Result : Meta.ITunesResult :=
  { trackName := some "Song", artistName := some "Artist" }

/-- The metadata `extractMetadata` produces for the C9 witness. -/
def c9Md : DetailedMetadata :=
  { title := "Song", artist := "Artist", type := some "track", popularity := some 0 }

/-- The Spotify item of the C9 witness. -/
def c9Item : Spotify.SpotifyItem :=
  { name := "Song", external_urls_spotify := "https://open.spotify.com/track/aaa" }

/-- The source metadata of the C9 witness. -/
def c9Src : DetailedMetadata :=
  { title := "Song", artist := "Artist", type := some "track" }

/-- The Apple Music search result of the C9 witness. -/
def c9Track : AppleApi.AppleMusicTrack :=
  { type := "songs", attributes := { name := "Song", artistName := "Artist" } }

/-- Witness for claim C9: each preservation statement applied at a concrete
record. -/
theorem c9_witness :
    (Meta.extractMetadata c9Apple [c9Result] = Except.ok c9Md ∧
      c9Md.type = c9Apple.type) ∧
    (Spotify.mapSpotifyResponse c9Item c9Src).metadata.type = c9Src.type ∧
    (c9Src.type = some "track" ∧ c9Track.type = AppleApi.searchTypesKey c9Src ∧
      (AppleApi.mapAppleMusicResponse c9Track).type = c9Src.type) :=
  ⟨⟨by decide, c9_content_type_preserved.1 c9Apple [c9Result] c9Md (by decide)⟩,
   c9_content_type_preserved.2.1 c9Item c9Src,
   ⟨by decide, by decide,
     c9_content_type_preserved.2.2 c9Track c9Src "track" (by decide)
       (Or.inl rfl) (by decide)⟩⟩

/-- Spec-side selector for claim C10: the item list returned by the first
query, in order, whose search call succeeds with a nonempty list. -/
def firstHitItems (search : String → Option (List Spotify.SpotifyItem)) :
    List String → Option (List Spotify.SpotifyItem)
  | [] => none
  | q :: qs =>
    match search q with
    | none => firstHitItems search qs
    | some items => if items.length = 0 then firstHitItems search qs else some items

/-- Claim C10: when the source metadata carries a truthy ISRC,
`findBestMatch` returns the head of the candidate list unconditionally, so
the whole search returns the first item of the first query that yields any
results, mapped through `mapSpotifyResponse` — no score, threshold or
tribute penalty is involved, whichever query produced the hit. -/
theorem c10_isrc_first_item (search : String → Option (List Spotify.SpotifyItem))
    (src : DetailedMetadata) (h : JsStr.jsTruthyO src.isrc = true) :
    Spotify.searchSpotifyContent search src =
      (firstHitItems search (Spotify.generateSearchQueries src)).bind
        (fun items => items.head?.map (fun it => Spotify.mapSpotifyResponse it src)) := by
  unfold Spotify.searchSpotifyContent
  generalize Spotify.generateSearchQueries src = qs
  induction qs with
  | nil => rfl
  | cons q qs ih =>
    simp only [Spotify.searchLoop, firstHitItems]
    cases hs : search q with
    | none => exact ih
    | some items =>
      cases items with
      | nil =>
        simpa using ih
      | cons it its =>
        have hfb : Spotify.findBestMatch (it :: its) src = some it := by
          unfold Spotify.findBestMatch
          rw [if_pos h]
          rfl
        simp [hfb]

/-- The source metadata of the C10 witness: a track with a truthy ISRC. -/
def c10Src : DetailedMetadata :=
  { title := "a", artist := "b", type := some "track", isrc := some "USRC17607839" }

/-- First item returned by the loose text query in the C10 witness. -/
def c10ItemA : Spotify.SpotifyItem :=
  { name := "First Hit", external_urls_spotify := "https://open.spotify.com/track/aaa" }

/-- Second item returned by the loose text query in the C10 witness. -/
def c10ItemB : Spotify.SpotifyItem :=
  { name := "Second", external_urls_spotify := "https://open.spotify.com/track/bbb" }

/-- The search stub of the C10 witness: the ISRC query finds nothing, every
other query returns two items. -/
def c10Search : String → Option (List Spotify.SpotifyItem) :=
  fun q => if q = "isrc:USRC17607839" then some [] else some [c10ItemA, c10ItemB]

/-- Witness for claim C10: the ISRC query misses, and the search returns the
first item of the first loose query that hits. -/
theorem c10_witness :
    JsStr.jsTruthyO c10Src.isrc = true ∧
    Spotify.searchSpotifyContent c10Search c10Src =
      (firstHitItems c10Search (Spotify.generateSearchQueries c10Src)).bind
        (fun items => items.head?.map (fun it => Spotify.mapSpotifyResponse it c10Src)) ∧
    Spotify.searchSpotifyContent c10Search c10Src =
      some (Spotify.mapSpotifyResponse c10ItemA c10Src) :=
  ⟨by decide, c10_isrc_first_item c10Search c10Src (by decide), by decide⟩
